import Mathlib

/-!
Verification of the tool-calling, workflow-execution and provider-routing core
of the 200Model8CLI repository, as a shallow embedding in Lean.

Conventions of the embedding:
* Python values that flow through tool parameters and results are modelled by
  the inductive `PyVal`; floating point numbers do not occur in the verified
  claims, so the numeric case carries `Int`.
* Python dictionaries are modelled as association lists with python-dict
  update semantics (`alistSet` replaces the value of an existing key in place,
  otherwise appends at the end, which matches insertion-order preservation).
* A Python exception is a value of `PyExn`; a fragment of code that may raise
  has result type `PyOutcome`.  A bare `except Exception` clause in the source
  corresponds to a total `match` on the `PyOutcome` in the model.
* Wall-clock measurements (`time.time()` differences) are modelled by a
  non-negative tick count supplied per call.
-/

namespace Model8

/-- Model of a Python runtime value as used by tool parameters, tool results
and workflow variable bags. -/
inductive PyVal where
  | none
  | bool (b : Bool)
  | int (n : Int)
  | str (s : String)
  | list (xs : List PyVal)
  | dict (kvs : List (String × PyVal))
  deriving Repr

mutual
/-- Decidable equality for `PyVal` (the nested inductive is not covered by
`deriving`). -/
def pyDecEq : (a b : PyVal) → Decidable (a = b)
  | .none, .none => isTrue rfl
  | .none, .bool _ => isFalse (fun h => PyVal.noConfusion h)
  | .none, .int _ => isFalse (fun h => PyVal.noConfusion h)
  | .none, .str _ => isFalse (fun h => PyVal.noConfusion h)
  | .none, .list _ => isFalse (fun h => PyVal.noConfusion h)
  | .none, .dict _ => isFalse (fun h => PyVal.noConfusion h)
  | .bool _, .none => isFalse (fun h => PyVal.noConfusion h)
  | .bool a, .bool b =>
      if h : a = b then isTrue (by rw [h])
      else isFalse (by intro hc; injection hc with e; exact h e)
  | .bool _, .int _ => isFalse (fun h => PyVal.noConfusion h)
  | .bool _, .str _ => isFalse (fun h => PyVal.noConfusion h)
  | .bool _, .list _ => isFalse (fun h => PyVal.noConfusion h)
  | .bool _, .dict _ => isFalse (fun h => PyVal.noConfusion h)
  | .int _, .none => isFalse (fun h => PyVal.noConfusion h)
  | .int _, .bool _ => isFalse (fun h => PyVal.noConfusion h)
  | .int a, .int b =>
      if h : a = b then isTrue (by rw [h])
      else isFalse (by intro hc; injection hc with e; exact h e)
  | .int _, .str _ => isFalse (fun h => PyVal.noConfusion h)
  | .int _, .list _ => isFalse (fun h => PyVal.noConfusion h)
  | .int _, .dict _ => isFalse (fun h => PyVal.noConfusion h)
  | .str _, .none => isFalse (fun h => PyVal.noConfusion h)
  | .str _, .bool _ => isFalse (fun h => PyVal.noConfusion h)
  | .str _, .int _ => isFalse (fun h => PyVal.noConfusion h)
  | .str a, .str b =>
      if h : a = b then isTrue (by rw [h])
      else isFalse (by intro hc; injection hc with e; exact h e)
  | .str _, .list _ => isFalse (fun h => PyVal.noConfusion h)
  | .str _, .dict _ => isFalse (fun h => PyVal.noConfusion h)
  | .list _, .none => isFalse (fun h => PyVal.noConfusion h)
  | .list _, .bool _ => isFalse (fun h => PyVal.noConfusion h)
  | .list _, .int _ => isFalse (fun h => PyVal.noConfusion h)
  | .list _, .str _ => isFalse (fun h => PyVal.noConfusion h)
  | .list xs, .list ys =>
      match pyDecEqList xs ys with
      | isTrue h => isTrue (by rw [h])
      | isFalse h => isFalse (by intro hc; injection hc with e; exact h e)
  | .list _, .dict _ => isFalse (fun h => PyVal.noConfusion h)
  | .dict _, .none => isFalse (fun h => PyVal.noConfusion h)
  | .dict _, .bool _ => isFalse (fun h => PyVal.noConfusion h)
  | .dict _, .int _ => isFalse (fun h => PyVal.noConfusion h)
  | .dict _, .str _ => isFalse (fun h => PyVal.noConfusion h)
  | .dict _, .list _ => isFalse (fun h => PyVal.noConfusion h)
  | .dict xs, .dict ys =>
      match pyDecEqKvs xs ys with
      | isTrue h => isTrue (by rw [h])
      | isFalse h => isFalse (by intro hc; injection hc with e; exact h e)

/-- Decidable equality for lists of `PyVal`. -/
def pyDecEqList : (a b : List PyVal) → Decidable (a = b)
  | [], [] => isTrue rfl
  | [], _ :: _ => isFalse (fun h => List.noConfusion h)
  | _ :: _, [] => isFalse (fun h => List.noConfusion h)
  | x :: xs, y :: ys =>
      match pyDecEq x y, pyDecEqList xs ys with
      | isTrue h1, isTrue h2 => isTrue (by rw [h1, h2])
      | isFalse h1, _ =>
          isFalse (by intro hc; injection hc with e1 e2; exact h1 e1)
      | _, isFalse h2 =>
          isFalse (by intro hc; injection hc with e1 e2; exact h2 e2)

/-- Decidable equality for dict entry lists of `PyVal`. -/
def pyDecEqKvs : (a b : List (String × PyVal)) → Decidable (a = b)
  | [], [] => isTrue rfl
  | [], _ :: _ => isFalse (fun h => List.noConfusion h)
  | _ :: _, [] => isFalse (fun h => List.noConfusion h)
  | (k, v) :: xs, (k', v') :: ys =>
      match inferInstanceAs (Decidable (k = k')), pyDecEq v v',
            pyDecEqKvs xs ys with
      | isTrue h0, isTrue h1, isTrue h2 => isTrue (by rw [h0, h1, h2])
      | isFalse h0, _, _ =>
          isFalse (by
            intro hc; injection hc with e1 e2
            exact h0 (congrArg Prod.fst e1))
      | _, isFalse h1, _ =>
          isFalse (by
            intro hc; injection hc with e1 e2
            exact h1 (congrArg Prod.snd e1))
      | _, _, isFalse h2 =>
          isFalse (by intro hc; injection hc with e1 e2; exact h2 e2)
end

instance : DecidableEq PyVal := pyDecEq

/-- Membership test of a key in an association-list dictionary. -/
def alistHasKey {β : Type} (l : List (String × β)) (k : String) : Bool :=
  l.any (fun kv => kv.1 = k)

/-- Python dict lookup (`d.get(k)` / `d[k]`): keys are unique in a Python
dict, so first-match lookup is faithful. -/
def alistGet {β : Type} (l : List (String × β)) (k : String) : Option β :=
  match l with
  | [] => Option.none
  | kv :: t => if kv.1 = k then some kv.2 else alistGet t k

/-- Python dict assignment `d[k] = v`: replaces the value of an existing key
in place, otherwise appends the new key at the end. -/
def alistSet {β : Type} (l : List (String × β)) (k : String) (v : β) :
    List (String × β) :=
  match l with
  | [] => [(k, v)]
  | kv :: t => if kv.1 = k then (k, v) :: t else kv :: alistSet t k v

/-- Python dict deletion `del d[k]` (first entry with the key). -/
def alistRemove {β : Type} (l : List (String × β)) (k : String) :
    List (String × β) :=
  match l with
  | [] => []
  | kv :: t => if kv.1 = k then t else kv :: alistRemove t k

/-- Python truthiness of a value. -/
def pyTruthy : PyVal → Bool
  | .none => false
  | .bool b => b
  | .int n => n != 0
  | .str s => s != ""
  | .list xs => !xs.isEmpty
  | .dict kvs => !kvs.isEmpty

mutual
/-- Python `repr` of a value (string escaping inside quotes is not modelled;
no value used in the development needs it). -/
def pyRepr : PyVal → String
  | .none => "None"
  | .bool true => "True"
  | .bool false => "False"
  | .int n => toString n
  | .str s => "'" ++ s ++ "'"
  | .list xs => "[" ++ String.intercalate ", " (pyReprList xs) ++ "]"
  | .dict kvs => "\x7b" ++ String.intercalate ", " (pyReprKvs kvs) ++ "\x7d"

/-- `repr` of each element of a list. -/
def pyReprList : List PyVal → List String
  | [] => []
  | v :: t => pyRepr v :: pyReprList t

/-- `repr` of each `'key': value` entry of a dict. -/
def pyReprKvs : List (String × PyVal) → List String
  | [] => []
  | (k, v) :: t => ("'" ++ k ++ "': " ++ pyRepr v) :: pyReprKvs t
end

/-- Python `str` of a value: a bare string prints without quotes, every other
value prints as its `repr`. -/
def pyStr : PyVal → String
  | .str s => s
  | v => pyRepr v

/-- The Python exception values raised by the modelled code. -/
inductive PyExn where
  | valueError (msg : String)
  | typeError (msg : String)
  | attributeError (msg : String)
  | authenticationError (msg : String)
  | rateLimitError (msg : String)
  | modelNotFoundError (msg : String)
  | openRouterError (msg : String)
  /-- `httpx.HTTPStatusError` from `response.raise_for_status()`; NOT a
  subclass of `httpx.RequestError`, so the retry loop's
  `except httpx.RequestError` clause does not catch it. -/
  | httpStatusError (code : Nat)
  | genericError (msg : String)
  deriving Repr, DecidableEq

/-- `str(e)` of an exception.  For `httpx.HTTPStatusError` the library's text
is abstracted as a fixed phrase mentioning the status code. -/
def exnMsg : PyExn → String
  | .valueError m => m
  | .typeError m => m
  | .attributeError m => m
  | .authenticationError m => m
  | .rateLimitError m => m
  | .modelNotFoundError m => m
  | .openRouterError m => m
  | .httpStatusError c => "HTTP status error " ++ toString c
  | .genericError m => m

/-- Result of running a fragment of Python code: either a value or a raised
exception. -/
inductive PyOutcome (α : Type) where
  | ok (a : α)
  | exn (e : PyExn)
  deriving Repr, DecidableEq

/-! ## `tools/base.py`: Tool abstraction and Tool Registry -/

/-- `ToolCategory` enum. -/
inductive ToolCategory where
  | file_operations
  | web_tools
  | git_tools
  | code_tools
  | system_tools
  | custom
  deriving Repr, DecidableEq

/-- `ToolParameter` dataclass.  The `pattern` regex of the source is modelled
by its induced matcher predicate (what `re.match(pattern, value)` decides);
numeric bounds carry `Int` since no verified claim involves floats. -/
structure ToolParameter where
  name : String
  type : String
  description : String := ""
  required : Bool := true
  default : Option PyVal := Option.none
  enum : Option (List String) := Option.none
  pattern : Option (String → Bool) := Option.none
  min_value : Option Int := Option.none
  max_value : Option Int := Option.none
  min_length : Option Nat := Option.none
  max_length : Option Nat := Option.none

/-- `ToolResult` dataclass. -/
structure ToolResult where
  success : Bool
  result : PyVal := PyVal.none
  error : Option String := Option.none
  execution_time : Nat := 0
  metadata : List (String × PyVal) := []
  deriving Repr, DecidableEq

/-- A `BaseTool` instance: its identity, declared parameters, flags, its
abstract `execute` body (a function of the keyword arguments that either
returns a `ToolResult` or raises), and the mutable counters owned by the
instance. -/
structure BaseTool where
  name : String
  description : String := ""
  category : ToolCategory
  requires_confirmation : Bool := false
  dangerous : Bool := false
  get_parameters : List ToolParameter := []
  execute : List (String × PyVal) → PyOutcome ToolResult
  enabled : Bool := true
  execution_count : Nat := 0
  total_execution_time : Nat := 0
  error_count : Nat := 0

/-- `BaseTool._validate_type`: `isinstance` check against the declared
semantic type.  Python's `bool` is a subclass of `int`, so booleans pass the
"integer" and "number" checks; an unknown declared type skips validation. -/
def validate_type (v : PyVal) (expected : String) : Bool :=
  if expected = "string" then (match v with | .str _ => true | _ => false)
  else if expected = "integer" then
    (match v with | .int _ => true | .bool _ => true | _ => false)
  else if expected = "number" then
    (match v with | .int _ => true | .bool _ => true | _ => false)
  else if expected = "boolean" then
    (match v with | .bool _ => true | _ => false)
  else if expected = "array" then
    (match v with | .list _ => true | _ => false)
  else if expected = "object" then
    (match v with | .dict _ => true | _ => false)
  else true

/-- Numeric view used by the min/max constraint checks
(`isinstance(value, (int, float))`; a Python bool counts as an int). -/
def pyAsNum : PyVal → Option Int
  | .int n => some n
  | .bool b => some (if b then 1 else 0)
  | _ => Option.none

/-- `BaseTool._validate_constraints`.  The enum check uses Python `in`, which
compares with `==`: no value of another runtime type equals a string, so a
non-string value fails a (non-empty) enum; an empty enum list is falsy in
Python and skips the check entirely.  Pattern, numeric and length checks
apply only to values of the matching runtime type, exactly as the source's
`isinstance` guards do. -/
def validate_constraints (v : PyVal) (p : ToolParameter) : Bool :=
  (match p.enum with
   | some l =>
       if l = [] then true
       else (match v with | .str s => l.contains s | _ => false)
   | Option.none => true) &&
  (match p.pattern, v with
   | some m, .str s => m s
   | _, _ => true) &&
  (match p.min_value, pyAsNum v with
   | some lo, some n => decide (lo ≤ n)
   | _, _ => true) &&
  (match p.max_value, pyAsNum v with
   | some hi, some n => decide (n ≤ hi)
   | _, _ => true) &&
  (match p.min_length, v with
   | some lo, .str s => decide (lo ≤ s.length)
   | _, _ => true) &&
  (match p.max_length, v with
   | some hi, .str s => decide (s.length ≤ hi)
   | _, _ => true)

/-- Lookup in the `param_dict` comprehension `{p.name: p}`: a later parameter
with a duplicate name shadows an earlier one. -/
def findParam (ps : List ToolParameter) (n : String) : Option ToolParameter :=
  ps.foldl (fun acc p => if p.name = n then some p else acc) Option.none

/-- `BaseTool.validate_parameters`: every required parameter must be present,
and every supplied value whose name is declared must pass the type and
constraint checks (unknown names are only warned about and skipped). -/
def validate_parameters (t : BaseTool) (kwargs : List (String × PyVal)) :
    Bool :=
  let ps := t.get_parameters
  ps.all (fun p => !p.required || alistHasKey kwargs p.name) &&
  kwargs.all (fun kv =>
    match findParam ps kv.1 with
    | Option.none => true
    | some p => validate_type kv.2 p.type && validate_constraints kv.2 p)

/-- `BaseTool.safe_execute`: validates, runs the body, updates the metrics
counters, stamps the measured duration.  `elapsed` is the wall-clock tick
count measured for this call.  Note the source returns the validation-failure
result *before* the metrics update, so a validation failure leaves all three
counters untouched. -/
def safe_execute (t : BaseTool) (kwargs : List (String × PyVal))
    (elapsed : Nat) : BaseTool × ToolResult :=
  if !validate_parameters t kwargs then
    (t, { success := false, error := some "Parameter validation failed",
          execution_time := elapsed })
  else
    match t.execute kwargs with
    | .ok r =>
        let t' := { t with
          execution_count := t.execution_count + 1,
          total_execution_time := t.total_execution_time + elapsed,
          error_count := t.error_count + (if r.success then 0 else 1) }
        (t', { r with execution_time := elapsed })
    | .exn e =>
        let t' := { t with
          execution_count := t.execution_count + 1,
          total_execution_time := t.total_execution_time + elapsed,
          error_count := t.error_count + 1 }
        (t', { success := false,
               error := some ("Tool execution failed: " ++ exnMsg e),
               execution_time := elapsed })

/-- `ToolRegistry`: the primary name→tool map is an association list with
python-dict semantics; the category index `categories` is modelled as a total
function with `[]` for absent keys (the source's
`if tool.category not in self.categories: self.categories[...] = []`
only materialises the empty default, which this representation makes
implicit; no name set differs). -/
structure ToolRegistry where
  tools : List (String × BaseTool) := []
  categories : ToolCategory → List String := fun _ => []

/-- `ToolRegistry.register_tool`: last-write-wins insert into the name map,
and append of the name to its category's list when not already present.
A replaced tool's *old* category list is not touched. -/
def register_tool (reg : ToolRegistry) (t : BaseTool) : ToolRegistry :=
  { tools := alistSet reg.tools t.name t,
    categories := fun c =>
      if c = t.category then
        (if (reg.categories c).any (fun m => m = t.name) then
          reg.categories c
         else reg.categories c ++ [t.name])
      else reg.categories c }

/-- `ToolRegistry.unregister_tool`: removes the entry and erases the name
from the list of the *current* tool's category (only the first occurrence,
as `list.remove` does); a missing name is a no-op. -/
def unregister_tool (reg : ToolRegistry) (name : String) : ToolRegistry :=
  match alistGet reg.tools name with
  | Option.none => reg
  | some t =>
      { tools := alistRemove reg.tools name,
        categories := fun c =>
          if c = t.category then (reg.categories c).erase name
          else reg.categories c }

/-- `ToolRegistry.get_tool`. -/
def get_tool (reg : ToolRegistry) (name : String) : Option BaseTool :=
  alistGet reg.tools name

/-- `ToolRegistry.execute_tool`: absent name and disabled tool short-circuit
to failure results; otherwise delegates to `safe_execute`, whose counter
updates land back in the registry (in the source the tool object is mutated
in place). -/
def execute_tool (reg : ToolRegistry) (name : String)
    (kwargs : List (String × PyVal)) (elapsed : Nat) :
    ToolRegistry × ToolResult :=
  match alistGet reg.tools name with
  | Option.none =>
      (reg, { success := false,
              error := some ("Tool '" ++ name ++ "' not found") })
  | some t =>
      if !t.enabled then
        (reg, { success := false,
                error := some ("Tool '" ++ name ++ "' is disabled") })
      else
        let te := safe_execute t kwargs elapsed
        ({ reg with tools := alistSet reg.tools name te.1 }, te.2)

/-! ## `workflows/workflow_engine.py`: Workflow Engine -/

/-- `WorkflowStatus` enum. -/
inductive WorkflowStatus where
  | pending
  | running
  | completed
  | failed
  | cancelled
  deriving Repr, DecidableEq

/-- `StepStatus` enum. -/
inductive StepStatus where
  | pending
  | running
  | completed
  | failed
  | skipped
  deriving Repr, DecidableEq

/-- `WorkflowStep` dataclass.  `on_failure` is the literal policy string of
the source ("stop" / "continue" / "retry"). -/
structure WorkflowStep where
  id : String
  name : String
  tool : String
  parameters : List (String × PyVal)
  condition : Option String := Option.none
  retry_count : Nat := 0
  max_retries : Nat := 3
  timeout : Option Nat := Option.none
  on_failure : String := "stop"
  status : StepStatus := StepStatus.pending
  result : Option ToolResult := Option.none
  error : Option String := Option.none
  started_at : Option String := Option.none
  completed_at : Option String := Option.none
  deriving Repr, DecidableEq

/-- `Workflow` dataclass. -/
structure Workflow where
  id : String
  name : String
  description : String
  version : String := "1.0.0"
  author : String := "user"
  tags : List String := []
  steps : List WorkflowStep := []
  /-- the source's `variables` field (that spelling is a reserved command
  name in Lean) -/
  vars : List (String × PyVal) := []
  status : WorkflowStatus := WorkflowStatus.pending
  started_at : Option String := Option.none
  completed_at : Option String := Option.none
  error : Option String := Option.none
  deriving Repr, DecidableEq

/-- The engine's collaborators for one run.  `evalPy` abstracts Python's
builtin `eval` used by `_evaluate_condition`; `nowIso` and `ts` are the
run's `datetime.now().isoformat()` and `strftime("%Y%m%d_%H%M%S")` instants
(the model takes one instant per run). -/
structure EngineCtx where
  reg : ToolRegistry
  evalPy : String → PyOutcome PyVal
  nowIso : String
  ts : String

/-- Python `str.replace` on character lists: scans left to right, replacing
non-overlapping occurrences and skipping past each replacement (the empty
pattern, which Python treats specially, never occurs in the modelled code).
Defined from scratch so that concrete runs reduce inside the kernel. -/
def replaceChars : Nat → List Char → List Char → List Char → List Char
  | 0, s, _, _ => s
  | _ + 1, [], _, _ => []
  | fuel + 1, c :: t, pat, rep =>
      if pat.isPrefixOf (c :: t) ∧ pat ≠ [] then
        rep ++ replaceChars fuel ((c :: t).drop pat.length) pat rep
      else c :: replaceChars fuel t pat rep

/-- Python `str.replace` (the fuel covers the scan: every step consumes at
least one input character). -/
def strReplace (s pat rep : String) : String :=
  String.mk (replaceChars s.length s.data pat.data rep.data)

/-- String-level variable substitution of `_substitute_variables`: the
special `now` / `timestamp` placeholders are replaced first, then every
`\x7b\x7bkey\x7d\x7d` placeholder of a variable in insertion order is
replaced by the variable's `str()` form.  The source's `if placeholder in
obj` guards are no-ops (replacing an absent pattern changes nothing). -/
def substituteString (nowIso ts : String) (vars : List (String × PyVal))
    (s : String) : String :=
  let s1 := strReplace s "\x7b\x7bnow\x7d\x7d" nowIso
  let s2 := strReplace s1 "\x7b\x7btimestamp\x7d\x7d" ts
  vars.foldl
    (fun acc kv =>
      strReplace acc ("\x7b\x7b" ++ kv.1 ++ "\x7d\x7d") (pyStr kv.2))
    s2

mutual
/-- `WorkflowEngine._substitute_variables`, recursively over the parameter
tree. -/
def substitute_variables (nowIso ts : String)
    (vars : List (String × PyVal)) : PyVal → PyVal
  | .str s => .str (substituteString nowIso ts vars s)
  | .dict kvs => .dict (substituteKvs nowIso ts vars kvs)
  | .list xs => .list (substituteList nowIso ts vars xs)
  | .none => .none
  | .bool b => .bool b
  | .int n => .int n

/-- Substitution over a list value. -/
def substituteList (nowIso ts : String) (vars : List (String × PyVal)) :
    List PyVal → List PyVal
  | [] => []
  | v :: t =>
      substitute_variables nowIso ts vars v :: substituteList nowIso ts vars t

/-- Substitution over a dict value (and over a step's parameter map). -/
def substituteKvs (nowIso ts : String) (vars : List (String × PyVal)) :
    List (String × PyVal) → List (String × PyVal)
  | [] => []
  | (k, v) :: t =>
      (k, substitute_variables nowIso ts vars v) ::
        substituteKvs nowIso ts vars t
end

/-- The variable replacement done inside `_evaluate_condition` (user
variables only; the special placeholders are not handled there). -/
def condSubstitute (vars : List (String × PyVal)) (c : String) : String :=
  vars.foldl
    (fun acc kv =>
      strReplace acc ("\x7b\x7b" ++ kv.1 ++ "\x7d\x7d") (pyStr kv.2))
    c

/-- `WorkflowEngine._evaluate_condition`: substitute the variables, `eval`
the resulting expression, default to `True` when evaluation raises.  The
lone caller immediately applies Python truthiness (`not ...`), which the
model folds into the returned `Bool`. -/
def evaluate_condition (evalPy : String → PyOutcome PyVal) (c : String)
    (vars : List (String × PyVal)) : Bool :=
  match evalPy (condSubstitute vars c) with
  | .ok v => pyTruthy v
  | .exn _ => true

/-- `WorkflowEngine._execute_step`: substitute variables into the
parameters, look the tool up in the registry's name map and invoke the
tool's `execute` body directly (the source does *not* go through
`safe_execute`, so no validation occurs and no counters move); a raising
body is caught and marks the step failed; a successful result is merged
into the variable bag under `"<step.id>_result"` only when its payload is a
truthy dict. -/
def execute_step (ctx : EngineCtx) (step : WorkflowStep)
    (vars : List (String × PyVal)) :
    WorkflowStep × List (String × PyVal) :=
  let step0 := { step with status := StepStatus.running,
                           started_at := some ctx.nowIso }
  let params := substituteKvs ctx.nowIso ctx.ts vars step0.parameters
  match alistGet ctx.reg.tools step0.tool with
  | some tool =>
      match tool.execute params with
      | .ok r =>
          if r.success then
            let vars' :=
              match r.result with
              | .dict kvs =>
                  if !kvs.isEmpty then
                    alistSet vars (step0.id ++ "_result") r.result
                  else vars
              | _ => vars
            ({ step0 with status := StepStatus.completed, result := some r,
                          completed_at := some ctx.nowIso }, vars')
          else
            ({ step0 with status := StepStatus.failed, result := some r,
                          error := r.error,
                          completed_at := some ctx.nowIso }, vars)
      | .exn e =>
          ({ step0 with status := StepStatus.failed,
                        error := some (exnMsg e),
                        completed_at := some ctx.nowIso }, vars)
  | Option.none =>
      ({ step0 with status := StepStatus.failed,
                    error := some ("Tool '" ++ step0.tool ++ "' not found"),
                    completed_at := some ctx.nowIso }, vars)

/-- Workflow-level mutable state threaded through the step loop. -/
structure RunState where
  status : WorkflowStatus
  error : Option String
  vars : List (String × PyVal)
  deriving Repr, DecidableEq

/-- One iteration of `execute_workflow`'s step loop *after* the condition
check: execute the step and apply its failure policy.  The returned `Bool`
is the loop-`break` flag (`stop` policy).  A failing step whose policy is
`retry` and whose counter is below the maximum is re-executed exactly once
(the source performs a single nested `_execute_step` call and then falls
through to the next step, whatever the retry's outcome). -/
def run_step_exec (ctx : EngineCtx) (step : WorkflowStep) (st : RunState) :
    WorkflowStep × RunState × Bool :=
  let e1 := execute_step ctx step st.vars
  let s1 := e1.1
  let st1 := { st with vars := e1.2 }
  if s1.status = StepStatus.failed then
    if s1.on_failure = "stop" then
      (s1, { st1 with status := WorkflowStatus.failed, error := s1.error },
        true)
    else if s1.on_failure = "retry" && s1.retry_count < s1.max_retries then
      let s2 := { s1 with retry_count := s1.retry_count + 1,
                          status := StepStatus.pending }
      let e2 := execute_step ctx s2 st1.vars
      (e2.1, { st1 with vars := e2.2 }, false)
    else
      (s1, st1, false)
  else
    (s1, st1, false)

/-- One iteration of the step loop including the condition check: a step
with a truthy (non-empty) condition string that evaluates to a falsy value
is marked skipped and nothing else happens. -/
def run_step (ctx : EngineCtx) (step : WorkflowStep) (st : RunState) :
    WorkflowStep × RunState × Bool :=
  let skip :=
    match step.condition with
    | some c => c != "" && !evaluate_condition ctx.evalPy c st.vars
    | Option.none => false
  if skip then ({ step with status := StepStatus.skipped }, st, false)
  else run_step_exec ctx step st

/-- The `for step in workflow.steps` loop: checks the cancellation flag at
each step boundary, runs the step, and stops early on the `stop` policy's
break.  Steps not reached keep their previous state. -/
def run_steps (ctx : EngineCtx) :
    List WorkflowStep → RunState → List WorkflowStep × RunState
  | [], st => ([], st)
  | step :: rest, st =>
      if st.status = WorkflowStatus.cancelled then (step :: rest, st)
      else
        let r := run_step ctx step st
        if r.2.2 then (r.1 :: rest, r.2.1)
        else
          let rr := run_steps ctx rest r.2.1
          (r.1 :: rr.1, rr.2)

/-- `WorkflowEngine.execute_workflow`: mark running, merge caller variables
over the workflow's bag (caller wins), run the steps, and compute the final
status — `failed` if any step ended failed, else `completed` — when no
`stop` policy already decided it.  The source's surrounding
`try/except` is dead in the model because every fallible part inside is
already caught (`_execute_step` and `_evaluate_condition` catch their own
exceptions). -/
def execute_workflow (ctx : EngineCtx) (wf : Workflow)
    (overrides : List (String × PyVal)) : Workflow :=
  let wf0 := { wf with status := WorkflowStatus.running,
                       started_at := some ctx.nowIso }
  let vars0 := overrides.foldl (fun acc kv => alistSet acc kv.1 kv.2)
    wf0.vars
  let r := run_steps ctx wf0.steps
    { status := WorkflowStatus.running, error := wf0.error, vars := vars0 }
  let wf1 := { wf0 with steps := r.1, vars := r.2.vars,
                        status := r.2.status, error := r.2.error }
  if wf1.status = WorkflowStatus.running then
    let failed := wf1.steps.filter (fun s => s.status = StepStatus.failed)
    if !failed.isEmpty then
      { wf1 with status := WorkflowStatus.failed,
                 error := some ("Failed steps: " ++
                   pyRepr (PyVal.list (failed.map (fun s => PyVal.str s.name)))),
                 completed_at := some ctx.nowIso }
    else
      { wf1 with status := WorkflowStatus.completed,
                 completed_at := some ctx.nowIso }
  else
    { wf1 with completed_at := some ctx.nowIso }

/-! ## JSON values and `json.loads`

`core/ollama_client.py` and `core/api.py` handle parsed JSON.  `JVal` models
a parsed JSON document; `loadsJson` models `json.loads` (restricted to
integer numerals and to the escape sequences used anywhere in this
development — floats and `\u` escapes never occur in the verified claims).
-/

/-- A parsed JSON value.  An object keeps its entries in parse order;
`jGet` applies the last-duplicate-wins semantics of Python's dict. -/
inductive JVal where
  | null
  | bool (b : Bool)
  | num (n : Int)
  | str (s : String)
  | arr (xs : List JVal)
  | obj (kvs : List (String × JVal))
  deriving Repr

mutual
/-- Decidable equality for `JVal`. -/
def jDecEq : (a b : JVal) → Decidable (a = b)
  | .null, .null => isTrue rfl
  | .null, .bool _ => isFalse (fun h => JVal.noConfusion h)
  | .null, .num _ => isFalse (fun h => JVal.noConfusion h)
  | .null, .str _ => isFalse (fun h => JVal.noConfusion h)
  | .null, .arr _ => isFalse (fun h => JVal.noConfusion h)
  | .null, .obj _ => isFalse (fun h => JVal.noConfusion h)
  | .bool _, .null => isFalse (fun h => JVal.noConfusion h)
  | .bool a, .bool b =>
      if h : a = b then isTrue (by rw [h])
      else isFalse (by intro hc; injection hc with e; exact h e)
  | .bool _, .num _ => isFalse (fun h => JVal.noConfusion h)
  | .bool _, .str _ => isFalse (fun h => JVal.noConfusion h)
  | .bool _, .arr _ => isFalse (fun h => JVal.noConfusion h)
  | .bool _, .obj _ => isFalse (fun h => JVal.noConfusion h)
  | .num _, .null => isFalse (fun h => JVal.noConfusion h)
  | .num _, .bool _ => isFalse (fun h => JVal.noConfusion h)
  | .num a, .num b =>
      if h : a = b then isTrue (by rw [h])
      else isFalse (by intro hc; injection hc with e; exact h e)
  | .num _, .str _ => isFalse (fun h => JVal.noConfusion h)
  | .num _, .arr _ => isFalse (fun h => JVal.noConfusion h)
  | .num _, .obj _ => isFalse (fun h => JVal.noConfusion h)
  | .str _, .null => isFalse (fun h => JVal.noConfusion h)
  | .str _, .bool _ => isFalse (fun h => JVal.noConfusion h)
  | .str _, .num _ => isFalse (fun h => JVal.noConfusion h)
  | .str a, .str b =>
      if h : a = b then isTrue (by rw [h])
      else isFalse (by intro hc; injection hc with e; exact h e)
  | .str _, .arr _ => isFalse (fun h => JVal.noConfusion h)
  | .str _, .obj _ => isFalse (fun h => JVal.noConfusion h)
  | .arr _, .null => isFalse (fun h => JVal.noConfusion h)
  | .arr _, .bool _ => isFalse (fun h => JVal.noConfusion h)
  | .arr _, .num _ => isFalse (fun h => JVal.noConfusion h)
  | .arr _, .str _ => isFalse (fun h => JVal.noConfusion h)
  | .arr xs, .arr ys =>
      match jDecEqList xs ys with
      | isTrue h => isTrue (by rw [h])
      | isFalse h => isFalse (by intro hc; injection hc with e; exact h e)
  | .arr _, .obj _ => isFalse (fun h => JVal.noConfusion h)
  | .obj _, .null => isFalse (fun h => JVal.noConfusion h)
  | .obj _, .bool _ => isFalse (fun h => JVal.noConfusion h)
  | .obj _, .num _ => isFalse (fun h => JVal.noConfusion h)
  | .obj _, .str _ => isFalse (fun h => JVal.noConfusion h)
  | .obj _, .arr _ => isFalse (fun h => JVal.noConfusion h)
  | .obj xs, .obj ys =>
      match jDecEqKvs xs ys with
      | isTrue h => isTrue (by rw [h])
      | isFalse h => isFalse (by intro hc; injection hc with e; exact h e)

/-- Decidable equality for lists of `JVal`. -/
def jDecEqList : (a b : List JVal) → Decidable (a = b)
  | [], [] => isTrue rfl
  | [], _ :: _ => isFalse (fun h => List.noConfusion h)
  | _ :: _, [] => isFalse (fun h => List.noConfusion h)
  | x :: xs, y :: ys =>
      match jDecEq x y, jDecEqList xs ys with
      | isTrue h1, isTrue h2 => isTrue (by rw [h1, h2])
      | isFalse h1, _ =>
          isFalse (by intro hc; injection hc with e1 e2; exact h1 e1)
      | _, isFalse h2 =>
          isFalse (by intro hc; injection hc with e1 e2; exact h2 e2)

/-- Decidable equality for JSON object entry lists. -/
def jDecEqKvs : (a b : List (String × JVal)) → Decidable (a = b)
  | [], [] => isTrue rfl
  | [], _ :: _ => isFalse (fun h => List.noConfusion h)
  | _ :: _, [] => isFalse (fun h => List.noConfusion h)
  | (k, v) :: xs, (k', v') :: ys =>
      match inferInstanceAs (Decidable (k = k')), jDecEq v v',
            jDecEqKvs xs ys with
      | isTrue h0, isTrue h1, isTrue h2 => isTrue (by rw [h0, h1, h2])
      | isFalse h0, _, _ =>
          isFalse (by
            intro hc; injection hc with e1 e2
            exact h0 (congrArg Prod.fst e1))
      | _, isFalse h1, _ =>
          isFalse (by
            intro hc; injection hc with e1 e2
            exact h1 (congrArg Prod.snd e1))
      | _, _, isFalse h2 =>
          isFalse (by intro hc; injection hc with e1 e2; exact h2 e2)
end

instance : DecidableEq JVal := jDecEq

/-- Python dict lookup on a parsed JSON object: a duplicate key in the
source text ends up with its last value, which this right-biased fold
reproduces. -/
def jGet (kvs : List (String × JVal)) (k : String) : Option JVal :=
  kvs.foldl (fun acc kv => if kv.1 = k then some kv.2 else acc) Option.none

/-- The opening brace character (spelled via its code point). -/
def openBraceChar : Char := Char.ofNat 123

/-- The closing brace character (spelled via its code point). -/
def closeBraceChar : Char := Char.ofNat 125

/-- Skip JSON whitespace. -/
def jsonSkipWs : List Char → List Char
  | [] => []
  | c :: t =>
      if c = ' ' ∨ c = '\n' ∨ c = '\t' ∨ c = '\r' then jsonSkipWs t
      else c :: t

/-- Scan a JSON string body after its opening quote; returns the decoded
characters and the input after the closing quote. -/
def jsonStringBody : List Char → Option (List Char × List Char)
  | [] => Option.none
  | c :: t =>
      if c = '"' then some ([], t)
      else if c = '\\' then
        match t with
        | [] => Option.none
        | e :: t2 =>
            let dec : Option Char :=
              if e = '"' then some '"'
              else if e = '\\' then some '\\'
              else if e = '/' then some '/'
              else if e = 'n' then some '\n'
              else if e = 't' then some '\t'
              else if e = 'r' then some '\r'
              else Option.none
            match dec with
            | some d =>
                match jsonStringBody t2 with
                | some (s, r) => some (d :: s, r)
                | Option.none => Option.none
            | Option.none => Option.none
      else
        match jsonStringBody t with
        | some (s, r) => some (c :: s, r)
        | Option.none => Option.none

/-- Take a maximal run of decimal digits. -/
def jsonDigits : List Char → List Char × List Char
  | [] => ([], [])
  | c :: t =>
      if c.isDigit then
        let (ds, r) := jsonDigits t
        (c :: ds, r)
      else ([], c :: t)

/-- Numeric value of a digit run. -/
def digitsToNat (ds : List Char) : Nat :=
  ds.foldl (fun a c => a * 10 + (c.toNat - 48)) 0

/-- Reject the float forms this model does not cover (a fractional part or
exponent after the integer digits makes the whole parse fail, where real
`json.loads` would produce a float — no verified claim feeds a float). -/
def jsonNumDone (n : Int) (r : List Char) : Option (JVal × List Char) :=
  match r with
  | c :: _ =>
      if c = '.' ∨ c = 'e' ∨ c = 'E' then Option.none
      else some (.num n, r)
  | [] => some (.num n, [])

mutual
/-- Recursive-descent JSON value parser (fuel-indexed). -/
def jsonValue : Nat → List Char → Option (JVal × List Char)
  | 0, _ => Option.none
  | fuel + 1, cs =>
      match jsonSkipWs cs with
      | [] => Option.none
      | 'n' :: 'u' :: 'l' :: 'l' :: r => some (.null, r)
      | 't' :: 'r' :: 'u' :: 'e' :: r => some (.bool true, r)
      | 'f' :: 'a' :: 'l' :: 's' :: 'e' :: r => some (.bool false, r)
      | c :: t =>
          if c = '"' then
            match jsonStringBody t with
            | some (s, r) => some (.str (String.mk s), r)
            | Option.none => Option.none
          else if c = openBraceChar then jsonObjItems fuel t
          else if c = '[' then jsonArrItems fuel t
          else if c = '-' then
            match jsonDigits t with
            | ([], _) => Option.none
            | (ds, r) => jsonNumDone (-(digitsToNat ds : Int)) r
          else if c.isDigit then
            match jsonDigits (c :: t) with
            | (ds, r) => jsonNumDone (digitsToNat ds) r
          else Option.none

/-- Array items after the opening bracket. -/
def jsonArrItems : Nat → List Char → Option (JVal × List Char)
  | 0, _ => Option.none
  | fuel + 1, cs =>
      match jsonSkipWs cs with
      | ']' :: r => some (.arr [], r)
      | cs2 =>
          match jsonArrLoop fuel cs2 with
          | some (xs, r) => some (.arr xs, r)
          | Option.none => Option.none

/-- One-or-more array items, comma separated, up to the closing bracket. -/
def jsonArrLoop : Nat → List Char → Option (List JVal × List Char)
  | 0, _ => Option.none
  | fuel + 1, cs =>
      match jsonValue fuel cs with
      | some (v, r) =>
          (match jsonSkipWs r with
           | ',' :: r2 =>
               (match jsonArrLoop fuel r2 with
                | some (xs, r3) => some (v :: xs, r3)
                | Option.none => Option.none)
           | ']' :: r2 => some ([v], r2)
           | _ => Option.none)
      | Option.none => Option.none

/-- Object entries after the opening brace. -/
def jsonObjItems : Nat → List Char → Option (JVal × List Char)
  | 0, _ => Option.none
  | fuel + 1, cs =>
      match jsonSkipWs cs with
      | c :: r =>
          if c = closeBraceChar then some (.obj [], r)
          else
            (match jsonObjLoop fuel (c :: r) with
             | some (kvs, r2) => some (.obj kvs, r2)
             | Option.none => Option.none)
      | [] => Option.none

/-- One-or-more `"key": value` object entries, comma separated, up to the
closing brace. -/
def jsonObjLoop : Nat → List Char → Option (List (String × JVal) × List Char)
  | 0, _ => Option.none
  | fuel + 1, cs =>
      match jsonSkipWs cs with
      | '"' :: t =>
          (match jsonStringBody t with
           | some (k, r) =>
               (match jsonSkipWs r with
                | ':' :: r2 =>
                    (match jsonValue fuel r2 with
                     | some (v, r3) =>
                         (match jsonSkipWs r3 with
                          | ',' :: r4 =>
                              (match jsonObjLoop fuel r4 with
                               | some (kvs, r5) =>
                                   some ((String.mk k, v) :: kvs, r5)
                               | Option.none => Option.none)
                          | c :: r4 =>
                              if c = closeBraceChar then
                                some ([(String.mk k, v)], r4)
                              else Option.none
                          | [] => Option.none)
                     | Option.none => Option.none)
                | _ => Option.none)
           | Option.none => Option.none)
      | _ => Option.none
end

/-- `json.loads`: parse one value and require only whitespace after it. -/
def loadsJson (s : String) : Option JVal :=
  match jsonValue (s.length + 1) s.data with
  | some (v, r) => if jsonSkipWs r = [] then some v else Option.none
  | Option.none => Option.none

/-! ## `core/ollama_client.py`: tool-call emulation parsing -/

/-- The literal the regex looks for: `"tool_calls"` with its quotes. -/
def tcLiteral : List Char := '"' :: ("tool_calls".data ++ ['"'])

/-- Does the `"tool_calls"` literal occur at position `i`? -/
def tcOccursAt (cs : List Char) (i : Nat) : Bool :=
  tcLiteral.isPrefixOf (cs.drop i)

/-- Model of `re.search(r'\x7b.*"tool_calls".*\x7d', text, re.DOTALL)`:
with both `.*` greedy, a match (when one exists) starts at the leftmost
opening brace that is followed by an occurrence of the literal which is in
turn followed by a closing brace, and ends at the rightmost closing brace
preceded by such an occurrence (after the chosen start).  Returns the
matched substring. -/
def locate_tool_calls (s : String) : Option String :=
  let cs := s.data
  let n := cs.length
  let occs := (List.range n).filter (fun j => tcOccursAt cs j)
  let closes := (List.range n).filter (fun k => cs.getD k ' ' = closeBraceChar)
  let starts := (List.range n).filter (fun i =>
    cs.getD i ' ' = openBraceChar &&
    occs.any (fun j =>
      i < j && closes.any (fun k => j + tcLiteral.length ≤ k)))
  match starts.head? with
  | some i =>
      let ends := closes.filter (fun k =>
        occs.any (fun j => i < j && j + tcLiteral.length ≤ k))
      match ends.getLast? with
      | some k => some (String.mk ((cs.drop i).take (k + 1 - i)))
      | Option.none => Option.none
  | Option.none => Option.none

/-- What `for call in tool_calls` iterates over: list elements, dict keys
(first-occurrence order), the characters of a string; anything else raises
`TypeError`.  The name in the error message mirrors CPython's. -/
def pyIterJ : JVal → Option (List JVal)
  | .arr xs => some xs
  | .obj kvs => some ((kvs.map Prod.fst).eraseDups.map JVal.str)
  | .str s => some (s.data.map (fun c => JVal.str (String.mk [c])))
  | .null => Option.none
  | .bool _ => Option.none
  | .num _ => Option.none

/-- The Python type name used in the `TypeError` message for a
non-iterable `tool_calls` value. -/
def jTypeName : JVal → String
  | .null => "NoneType"
  | .bool _ => "bool"
  | .num _ => "int"
  | .str _ => "str"
  | .arr _ => "list"
  | .obj _ => "dict"

/-- The validation/formatting loop of `_parse_tool_calls`: entries that are
not dicts or lack a `function` key are dropped; a present `function` value
that is not itself a dict makes `call["function"].get` raise
`AttributeError` (returned here as `Option.none`, which the caller's
`except` clause turns into an empty list); a missing `id` is synthesized
from the number of calls formatted so far. -/
def format_calls (acc : List JVal) : List JVal → Option (List JVal)
  | [] => some acc
  | call :: rest =>
      match call with
      | .obj kvs =>
          (match jGet kvs "function" with
           | some f =>
               (match f with
                | .obj fkvs =>
                    let idv := (jGet kvs "id").getD
                      (.str ("call_" ++ toString acc.length))
                    let c := JVal.obj
                      [("id", idv), ("type", .str "function"),
                       ("function", .obj
                         [("name", (jGet fkvs "name").getD (.str "")),
                          ("arguments",
                           (jGet fkvs "arguments").getD
                             (.str "\x7b\x7d"))])]
                    format_calls (acc ++ [c]) rest
                | _ => Option.none)
           | Option.none => format_calls acc rest)
      | _ => format_calls acc rest

/-- `OllamaClient._parse_tool_calls`: locate the candidate JSON, parse it,
pull out `tool_calls`, iterate and format.  The `except` clause catches
`json.JSONDecodeError`, `KeyError` and `AttributeError` — but not the
`TypeError` raised when the `tool_calls` value is not iterable, which
therefore escapes. -/
def parse_tool_calls (response_content : String) : PyOutcome (List JVal) :=
  match locate_tool_calls response_content with
  | Option.none => .ok []
  | some cand =>
      match loadsJson cand with
      | Option.none => .ok []
      | some v =>
          match v with
          | .obj kvs =>
              (match jGet kvs "tool_calls" with
               | some tc =>
                   (match pyIterJ tc with
                    | Option.none =>
                        .exn (.typeError
                          ("'" ++ jTypeName tc ++ "' object is not iterable"))
                    | some items =>
                        (match format_calls [] items with
                         | some l => .ok l
                         | Option.none => .ok []))
               | Option.none => .ok [])
          | _ => .ok []

/-- The assistant message assembled by
`_handle_tool_calling_completion` from the local model's raw text: content
is the raw text when no tool call was recovered and `None` otherwise; a
`TypeError` escaping the parser is re-raised wrapped by the handler's own
`except` clause. -/
structure OllamaMessage where
  role : String
  content : Option String
  tool_calls : List JVal
  deriving Repr, DecidableEq

/-- The message-building tail of
`OllamaClient._handle_tool_calling_completion` (the HTTP exchange that
produced `response_content` is abstracted away). -/
def emulated_tool_message (response_content : String) :
    PyOutcome OllamaMessage :=
  match parse_tool_calls response_content with
  | .exn e =>
      .exn (.genericError ("Ollama tool calling failed: " ++ exnMsg e))
  | .ok tcs =>
      .ok { role := "assistant",
            content := if tcs.isEmpty then some response_content
                       else Option.none,
            tool_calls := tcs }

/-! ## `core/api.py`: request retry loop and provider routing -/

/-- What one HTTP attempt of `_make_request` produced: a response with a
status code and parsed body, or an `httpx.RequestError` (timeout,
connection failure). -/
inductive AttemptResult where
  | resp (status_code : Nat) (body : JVal)
  | netErr (msg : String)

/-- The body of `_make_request`'s `for attempt in range(max_retries + 1)`
loop, for a non-streaming POST.  `attempts n` is what the network returned
on attempt `n` (the abstracted `httpx` call).  The second component
collects the `asyncio.sleep` backoff delays in order.  `401`, `404` raise
immediately; `429` and network errors back off `baseDelay * 2 ^ n` and
retry while attempts remain; any other status at or above 400 raises
`httpx.HTTPStatusError` via `raise_for_status()`, which the
`except httpx.RequestError` clause does NOT catch, so it propagates at
once; a non-200 status below 400 makes `raise_for_status()` a no-op and
the loop simply moves to the next attempt.  The fuel counts the loop
iterations left (`maxRetries + 1 - n`); exhausting it is the loop's
fall-through `raise OpenRouterError("Max retries exceeded")`. -/
def make_request_loop (maxRetries baseDelay : Nat)
    (attempts : Nat → AttemptResult) :
    Nat → Nat → PyOutcome JVal × List Nat
  | 0, _ => (.exn (.openRouterError "Max retries exceeded"), [])
  | fuel + 1, n =>
      match attempts n with
      | .netErr m =>
          if n < maxRetries then
            let r := make_request_loop maxRetries baseDelay attempts fuel
              (n + 1)
            (r.1, baseDelay * 2 ^ n :: r.2)
          else (.exn (.openRouterError ("Request failed: " ++ m)), [])
      | .resp code body =>
          if code = 200 then (.ok body, [])
          else if code = 401 then
            (.exn (.authenticationError "Invalid API key"), [])
          else if code = 429 then
            (if n < maxRetries then
              let r := make_request_loop maxRetries baseDelay attempts fuel
                (n + 1)
              (r.1, baseDelay * 2 ^ n :: r.2)
            else (.exn (.rateLimitError "Rate limit exceeded"), []))
          else if code = 404 then
            (.exn (.modelNotFoundError "Model not found or not available"),
             [])
          else if 400 ≤ code then (.exn (.httpStatusError code), [])
          else make_request_loop maxRetries baseDelay attempts fuel (n + 1)

/-- `OpenRouterClient._make_request` for a non-streaming POST. -/
def make_request (maxRetries baseDelay : Nat)
    (attempts : Nat → AttemptResult) : PyOutcome JVal × List Nat :=
  make_request_loop maxRetries baseDelay attempts (maxRetries + 1) 0

/-- The slice of `Config` the router reads. -/
structure RouterConfig where
  default_model : String
  max_retries : Nat
  base_retry_delay : Nat

/-- `GroqClient.AVAILABLE_MODELS` keys, used by `_is_groq_model`. -/
def groqAvailableModels : List String :=
  ["allam-2-7b", "compound-beta", "compound-beta-mini",
   "deepseek-r1-distill-llama-70b", "gemma2-9b-it", "llama-3.1-8b-instant",
   "llama-3.3-70b-versatile", "llama3-70b-8192", "llama3-8b-8192",
   "meta-llama/llama-4-maverick-17b-128e-instruct",
   "meta-llama/llama-4-scout-17b-16e-instruct",
   "meta-llama/llama-guard-4-12b", "meta-llama/llama-prompt-guard-2-22m",
   "meta-llama/llama-prompt-guard-2-86m", "mistral-saba-24b",
   "moonshotai/kimi-k2-instruct", "qwen/qwen3-32b"]

/-- A `Message` handed to `chat_completion`. -/
structure ApiMessage where
  role : String
  content : String
  tool_calls : Option JVal := Option.none
  tool_call_id : Option String := Option.none

/-- `ChatResponse` as assembled from the provider's JSON; the `.get`
defaults keep each field a raw `JVal`. -/
structure ApiChatResponse where
  id : JVal
  model : JVal
  choices : JVal
  usage : JVal
  created : JVal
  deriving Repr, DecidableEq

/-- `OpenRouterClient.chat_completion` for a non-streaming call.  The
request payload built from `messages`/tools/temperature is not modelled
separately: the network's reaction is abstracted by `attempts`, and the
Ollama and Groq sub-clients (whole HTTP exchanges of other files) by the
`ollamaPath` / `groqPath` outcomes, each re-wrapped exactly as the
source's `except` clauses do.  Every failure path *raises* (`ValueError`
on empty input, typed `OpenRouterError`s otherwise); no error-carrying
response value exists on this entry point. -/
def chat_completion (cfg : RouterConfig) (attempts : Nat → AttemptResult)
    (ollamaPath groqPath : PyOutcome ApiChatResponse)
    (messages : List ApiMessage) (model? : Option String) :
    PyOutcome ApiChatResponse :=
  if messages.isEmpty then .exn (.valueError "Messages cannot be empty")
  else
    let model :=
      match model? with
      | Option.none => cfg.default_model
      | some m => if m = "" then cfg.default_model else m
    if model.startsWith "ollama/" then
      match ollamaPath with
      | .ok r => .ok r
      | .exn e =>
          .exn (.openRouterError ("Ollama completion failed: " ++ exnMsg e))
    else if model.startsWith "groq/" || groqAvailableModels.contains model
    then
      match groqPath with
      | .ok r => .ok r
      | .exn e =>
          .exn (.openRouterError ("Groq completion failed: " ++ exnMsg e))
    else
      match (make_request cfg.max_retries cfg.base_retry_delay attempts).1
      with
      | .ok body =>
          .ok { id := (match body with
                       | .obj kvs => (jGet kvs "id").getD (.str "unknown")
                       | _ => .str "unknown"),
                model := (match body with
                          | .obj kvs => (jGet kvs "model").getD (.str model)
                          | _ => .str model),
                choices := (match body with
                            | .obj kvs => (jGet kvs "choices").getD (.arr [])
                            | _ => .arr []),
                usage := (match body with
                          | .obj kvs => (jGet kvs "usage").getD (.obj [])
                          | _ => .obj []),
                created := (match body with
                            | .obj kvs => (jGet kvs "created").getD (.num 0)
                            | _ => .num 0) }
      | .exn e =>
          .exn (.openRouterError ("Chat completion failed: " ++ exnMsg e))

/-! ## Concrete fixtures used by witnesses and counterexamples -/

/-- An echo tool: returns its single string parameter unchanged as the
result payload (the stub of spec §8.10). -/
def echoTool : BaseTool :=
  { name := "echo", category := ToolCategory.custom,
    get_parameters := [{ name := "message", type := "string" }],
    execute := fun kwargs =>
      .ok { success := true,
            result := (alistGet kwargs "message").getD PyVal.none } }

/-- A tool whose declared parameters demand a required string `x`, with a
body that always succeeds. -/
def strictTool : BaseTool :=
  { name := "strict", category := ToolCategory.custom,
    get_parameters := [{ name := "x", type := "string" }],
    execute := fun _ => .ok { success := true, result := PyVal.str "ran" } }

/-- A tool whose body always returns a failure result. -/
def failTool : BaseTool :=
  { name := "failer", category := ToolCategory.custom,
    execute := fun _ => .ok { success := false, error := some "boom" } }

/-- A tool whose body always raises. -/
def raisingTool : BaseTool :=
  { name := "boom", category := ToolCategory.custom,
    execute := fun _ => .exn (.valueError "kaput") }

/-- A registered-but-disabled tool. -/
def disabledTool : BaseTool :=
  { name := "off", category := ToolCategory.custom, enabled := false,
    execute := fun _ => .ok { success := true } }

/-- A registry carrying the raising and the disabled tool. -/
def c3Reg : ToolRegistry :=
  register_tool (register_tool {} raisingTool) disabledTool

/-! ## Helper lemmas about `safe_execute` -/

/-- `safe_execute` only ever updates the three counters: the declared
parameters, the body and the enabled flag of the returned tool state are
those of the input. -/
theorem safe_execute_fst_static (t : BaseTool)
    (k : List (String × PyVal)) (e : Nat) :
    (safe_execute t k e).1.get_parameters = t.get_parameters ∧
    (safe_execute t k e).1.execute = t.execute ∧
    (safe_execute t k e).1.enabled = t.enabled := by
  unfold safe_execute
  split
  · exact ⟨rfl, rfl, rfl⟩
  · split <;> exact ⟨rfl, rfl, rfl⟩

/-- Parameter validation depends only on the declared parameter list. -/
theorem validate_parameters_congr {t t' : BaseTool}
    (h : t'.get_parameters = t.get_parameters) :
    ∀ k, validate_parameters t' k = validate_parameters t k := by
  intro k
  unfold validate_parameters
  rw [h]

/-- Whether a call's outcome is a failure (failure result or raised body). -/
def outcomeFails (t : BaseTool) (kwargs : List (String × PyVal)) : Bool :=
  match t.execute kwargs with
  | .ok r => !r.success
  | .exn _ => true

/-- The failure outcome of a call depends only on the body. -/
theorem outcomeFails_congr {t t' : BaseTool} (h : t'.execute = t.execute) :
    ∀ k, outcomeFails t' k = outcomeFails t k := by
  intro k
  unfold outcomeFails
  rw [h]

/-- On validation failure, `safe_execute` returns the failure result before
touching any counter: the tool state comes back unchanged. -/
theorem safe_execute_invalid {t : BaseTool} {k : List (String × PyVal)}
    {e : Nat} (h : validate_parameters t k = false) :
    safe_execute t k e =
      (t, { success := false, error := some "Parameter validation failed",
            execution_time := e }) := by
  unfold safe_execute
  rw [h]
  simp

/-- On a validated call, `safe_execute` increments the execution counter,
adds the elapsed time, and increments the error counter exactly when the
outcome was a failure. -/
theorem safe_execute_valid_counts {t : BaseTool} {k : List (String × PyVal)}
    {e : Nat} (h : validate_parameters t k = true) :
    (safe_execute t k e).1.execution_count = t.execution_count + 1 ∧
    (safe_execute t k e).1.error_count =
      t.error_count + (if outcomeFails t k then 1 else 0) ∧
    (safe_execute t k e).1.total_execution_time =
      t.total_execution_time + e := by
  unfold safe_execute outcomeFails
  rw [h]
  simp only [Bool.not_true, Bool.false_eq_true, if_false]
  cases hx : t.execute k with
  | ok r => cases hr : r.success <;> simp [hr]
  | exn e => simp

/-- A sequence of calls to the safe-execution wrapper of one tool,
as (kwargs, elapsed) pairs; returns the final tool state. -/
def run_calls (t : BaseTool)
    (calls : List (List (String × PyVal) × Nat)) : BaseTool :=
  calls.foldl (fun acc c => (safe_execute acc c.1 c.2).1) t

/-! ## Claim C3 -/

/-- C3: for every call to `Registry.execute` (`ToolRegistry.execute_tool`):
an unregistered name returns a failure `ToolResult` (never raises); an
existing but disabled tool returns a failure `ToolResult` (never raises);
and a raising execution body is caught and converted into a failure
`ToolResult` carrying the exception's message.  (The model makes "never
raises" structural: `execute_tool` is a total function into
`ToolRegistry × ToolResult`, mirroring the source's catch-all handling.) -/
theorem C3_registry_execute_error_handling (reg : ToolRegistry)
    (name : String) (kwargs : List (String × PyVal)) (el : Nat) :
    (alistGet reg.tools name = Option.none →
      execute_tool reg name kwargs el =
        (reg, { success := false,
                error := some ("Tool '" ++ name ++ "' not found") })) ∧
    (∀ t, alistGet reg.tools name = some t → t.enabled = false →
      execute_tool reg name kwargs el =
        (reg, { success := false,
                error := some ("Tool '" ++ name ++ "' is disabled") })) ∧
    (∀ t e, alistGet reg.tools name = some t → t.enabled = true →
      validate_parameters t kwargs = true → t.execute kwargs = .exn e →
      (execute_tool reg name kwargs el).2 =
        { success := false,
          error := some ("Tool execution failed: " ++ exnMsg e),
          execution_time := el }) := by
  refine ⟨?_, ?_, ?_⟩
  · intro h
    unfold execute_tool
    rw [h]
  · intro t ht hd
    unfold execute_tool
    rw [ht]
    simp [hd]
  · intro t e ht he hv hx
    unfold execute_tool
    rw [ht]
    simp only [he, Bool.not_true, Bool.false_eq_true, if_false]
    unfold safe_execute
    rw [hv, hx]
    simp

/-- A concrete instantiation of the three branches of C3's theorem: a
lookup miss, the disabled tool and the raising tool of `c3Reg`. -/
theorem C3_registry_execute_error_handling_witness :
    execute_tool c3Reg "nope" [] 0 =
      (c3Reg, { success := false, error := some "Tool 'nope' not found" }) ∧
    execute_tool c3Reg "off" [] 0 =
      (c3Reg, { success := false, error := some "Tool 'off' is disabled" }) ∧
    (execute_tool c3Reg "boom" [] 5).2 =
      { success := false, error := some "Tool execution failed: kaput",
        execution_time := 5 } := by
  refine ⟨?_, ?_, ?_⟩
  · exact (C3_registry_execute_error_handling c3Reg "nope" [] 0).1 rfl
  · exact (C3_registry_execute_error_handling c3Reg "off" [] 0).2.1
      disabledTool rfl rfl
  · exact (C3_registry_execute_error_handling c3Reg "boom" [] 5).2.2
      raisingTool (.valueError "kaput") rfl rfl rfl rfl

/-! ## Claim C4 -/

/-- C4 (counterexample): the claim asserts `execution_count = N` after N
calls whatever their outcomes, explicitly including validation failures.
One call with invalid parameters (the required `x` is missing) leaves the
execution counter at 0, not 1: the source returns the validation-failure
result before the metrics update runs. -/
theorem C4_counterexample :
    validate_parameters strictTool [] = false ∧
    (run_calls strictTool [([], 5)]).execution_count = 0 ∧
    ¬ (run_calls strictTool [([], 5)]).execution_count = 1 := by
  refine ⟨by decide, rfl, by decide⟩

/-- C4 (amended): after any sequence of calls to a tool's safe-execution
wrapper, `execution_count` has grown by the number of calls that *passed
parameter validation* (validation failures return before the metrics
update and leave every counter untouched), `error_count` has grown by the
number of validated calls whose outcome was a failure, and the cumulative
execution time never decreases. -/
theorem C4_amended_counters (t : BaseTool)
    (calls : List (List (String × PyVal) × Nat)) :
    (run_calls t calls).execution_count =
      t.execution_count +
        calls.countP (fun c => validate_parameters t c.1) ∧
    (run_calls t calls).error_count =
      t.error_count +
        calls.countP
          (fun c => validate_parameters t c.1 && outcomeFails t c.1) ∧
    t.total_execution_time ≤ (run_calls t calls).total_execution_time := by
  induction calls generalizing t with
  | nil => simp [run_calls]
  | cons c rest ih =>
    have hrun : run_calls t (c :: rest) =
        run_calls ((safe_execute t c.1 c.2).1) rest := rfl
    obtain ⟨hp, he, -⟩ := safe_execute_fst_static t c.1 c.2
    obtain ⟨ih1, ih2, ih3⟩ := ih ((safe_execute t c.1 c.2).1)
    simp only [validate_parameters_congr hp, outcomeFails_congr he]
      at ih1 ih2 ih3
    rw [hrun]
    cases hv : validate_parameters t c.1 with
    | false =>
      have h1 : (safe_execute t c.1 c.2).1 = t := by
        rw [safe_execute_invalid hv]
      rw [h1] at ih1 ih2 ih3
      rw [h1]
      refine ⟨?_, ?_, ih3⟩
      · rw [ih1, List.countP_cons]
        simp [hv]
      · rw [ih2, List.countP_cons]
        simp [hv]
    | true =>
      obtain ⟨hc1, hc2, hc3⟩ := safe_execute_valid_counts (e := c.2) hv
      refine ⟨?_, ?_, ?_⟩
      · rw [ih1, hc1, List.countP_cons]
        simp [hv]
        omega
      · rw [ih2, hc2, List.countP_cons]
        simp only [hv, Bool.true_and]
        cases outcomeFails t c.1 with
        | false => simp
        | true => simp; omega
      · calc t.total_execution_time
            ≤ t.total_execution_time + c.2 := Nat.le_add_right _ _
          _ = (safe_execute t c.1 c.2).1.total_execution_time := hc3.symm
          _ ≤ _ := ih3

/-! ## Claim C1 -/

/-- Registry holding only `echoTool`. -/
def echoReg : ToolRegistry := register_tool {} echoTool

/-- Registry holding only `strictTool`. -/
def strictReg : ToolRegistry := register_tool {} strictTool

/-- Registry holding only `failTool`. -/
def failReg : ToolRegistry := register_tool {} failTool

/-- An engine context over a registry; `eval` is a collaborator that always
raises (none of the fixture workflows that use this context declare a
condition that must evaluate). -/
def mkCtx (reg : ToolRegistry) : EngineCtx :=
  { reg := reg, evalPy := fun _ => .exn (.genericError "eval"),
    nowIso := "NOW", ts := "TS" }

/-- A step invoking `strictTool` with an empty parameter map (the required
`x` is missing, so parameter validation would fail). -/
def sStrict : WorkflowStep :=
  { id := "a", name := "a", tool := "strict", parameters := [] }

/-- One-step workflow around `sStrict`. -/
def wfC1 : Workflow :=
  { id := "w1", name := "w1", description := "", steps := [sStrict] }

/-- C1 (counterexample): the claim says every tool invocation — including
the Workflow Engine's — validates parameters before the body runs and
updates the counters after.  Executing `wfC1` invokes `strictTool` with
parameters that fail validation, yet the body runs and the step completes
with the body's payload: `_execute_step` calls `tool.execute` directly and
never goes through `safe_execute`.  The same arguments pushed through
`Registry.execute` are rejected by validation, exhibiting the divergence. -/
theorem C1_counterexample :
    validate_parameters strictTool [] = false ∧
    (execute_workflow (mkCtx strictReg) wfC1 []).status =
      WorkflowStatus.completed ∧
    (execute_workflow (mkCtx strictReg) wfC1 []).steps.map
        (fun s => (s.status, s.result)) =
      [(StepStatus.completed,
        some { success := true, result := PyVal.str "ran" })] ∧
    (execute_tool strictReg "strict" [] 7).2.error =
      some "Parameter validation failed" ∧
    ((execute_tool strictReg "strict" [] 7).1.tools.map
        (fun kv => kv.2.execution_count)) = [0] := by
  refine ⟨by decide, by decide, by decide, by decide, by decide⟩

/-- C1 (amended): tool invocations made through `Registry.execute` do pass
through the safe-execution wrapper — a validation failure short-circuits to
a failure result without consulting the body or the counters, and a
validated call updates the counters after the body returns — but the
Workflow Engine does not: `_execute_step` invokes the tool's `execute` body
directly, so a step completes on the body's say-so even when parameter
validation would have rejected the call. -/
theorem C1_amended_envelope :
    (∀ (t : BaseTool) (k : List (String × PyVal)) (e : Nat),
      validate_parameters t k = false →
      safe_execute t k e =
        (t, { success := false, error := some "Parameter validation failed",
              execution_time := e })) ∧
    (∀ (t : BaseTool) (k : List (String × PyVal)) (e : Nat),
      validate_parameters t k = true →
      (safe_execute t k e).1.execution_count = t.execution_count + 1 ∧
      (safe_execute t k e).1.error_count =
        t.error_count + (if outcomeFails t k then 1 else 0) ∧
      (safe_execute t k e).1.total_execution_time =
        t.total_execution_time + e) ∧
    (∀ (reg : ToolRegistry) (name : String) (t : BaseTool)
        (k : List (String × PyVal)) (e : Nat),
      alistGet reg.tools name = some t → t.enabled = true →
      execute_tool reg name k e =
        ({ reg with tools := alistSet reg.tools name (safe_execute t k e).1 },
         (safe_execute t k e).2)) ∧
    (∀ (ctx : EngineCtx) (step : WorkflowStep)
        (vars : List (String × PyVal)) (tool : BaseTool) (r : ToolResult),
      alistGet ctx.reg.tools step.tool = some tool →
      tool.execute (substituteKvs ctx.nowIso ctx.ts vars step.parameters) =
        .ok r →
      r.success = true →
      validate_parameters tool
        (substituteKvs ctx.nowIso ctx.ts vars step.parameters) = false →
      (execute_step ctx step vars).1.status = StepStatus.completed) := by
  refine ⟨?_, ?_, ?_, ?_⟩
  · intro t k e h
    exact safe_execute_invalid h
  · intro t k e h
    exact safe_execute_valid_counts h
  · intro reg name t k e ht he
    unfold execute_tool
    rw [ht]
    simp [he]
  · intro ctx step vars tool r ht hx hr _
    simp only [execute_step, ht, hx, hr]
    simp

/-- A concrete instantiation of the four parts of C1's amended theorem. -/
theorem C1_amended_envelope_witness :
    safe_execute strictTool [] 3 =
      (strictTool,
       { success := false, error := some "Parameter validation failed",
         execution_time := 3 }) ∧
    (safe_execute echoTool [("message", PyVal.str "hi")] 2).1.execution_count
      = 1 ∧
    execute_tool strictReg "strict" [] 7 =
      ({ strictReg with
          tools := alistSet strictReg.tools "strict"
            (safe_execute strictTool [] 7).1 },
       (safe_execute strictTool [] 7).2) ∧
    (execute_step (mkCtx strictReg) sStrict []).1.status =
      StepStatus.completed := by
  refine ⟨?_, ?_, ?_, ?_⟩
  · exact (C1_amended_envelope.1) strictTool [] 3 (by decide)
  · exact ((C1_amended_envelope.2.1) echoTool [("message", PyVal.str "hi")] 2
      (by decide)).1
  · exact (C1_amended_envelope.2.2.1) strictReg "strict" strictTool [] 7 rfl
      rfl
  · exact (C1_amended_envelope.2.2.2) (mkCtx strictReg) sStrict [] strictTool
      { success := true, result := PyVal.str "ran" } rfl rfl rfl (by decide)

/-! ## Claim C5 -/

/-- A step invoking the always-failing tool under the `retry` policy with
`max_retries = 2`. -/
def sFail : WorkflowStep :=
  { id := "f", name := "f", tool := "failer", parameters := [],
    on_failure := "retry", max_retries := 2 }

/-- One-step workflow around `sFail`. -/
def wfC5 : Workflow :=
  { id := "w5", name := "w5", description := "", steps := [sFail] }

/-- The run state at entry of the step loop with an empty variable bag. -/
def rs0 : RunState :=
  { status := WorkflowStatus.running, error := Option.none, vars := [] }

/-- `_execute_step` never touches a step's retry counter, failure policy or
retry maximum. -/
theorem execute_step_preserves (ctx : EngineCtx) (step : WorkflowStep)
    (vars : List (String × PyVal)) :
    (execute_step ctx step vars).1.retry_count = step.retry_count ∧
    (execute_step ctx step vars).1.on_failure = step.on_failure ∧
    (execute_step ctx step vars).1.max_retries = step.max_retries := by
  simp only [execute_step]
  split
  · split
    · split <;> exact ⟨rfl, rfl, rfl⟩
    · exact ⟨rfl, rfl, rfl⟩
  · exact ⟨rfl, rfl, rfl⟩

/-- C5 (counterexample): for a persistently failing step with
`on_failure = retry` and `max_retries = 2`, the claim demands two
additional re-executions (retry counter 2).  The engine performs a single
nested re-execution and moves on: the final retry counter is 1. -/
theorem C5_counterexample :
    (execute_workflow (mkCtx failReg) wfC5 []).status =
      WorkflowStatus.failed ∧
    (execute_workflow (mkCtx failReg) wfC5 []).steps.map
        (fun s => (s.retry_count, s.status)) =
      [(1, StepStatus.failed)] ∧
    ¬ (execute_workflow (mkCtx failReg) wfC5 []).steps.map
        (fun s => s.retry_count) = [2] := by
  refine ⟨by decide, by decide, by decide⟩

/-- C5 (amended): when a step fails and its policy is `retry` with the
counter below the maximum, the engine increments the counter once, resets
the step to pending, re-executes it exactly once — whatever the maximum —
and then moves to the next step; the re-execution's outcome is not
subjected to the failure policy again. -/
theorem C5_amended_single_retry (ctx : EngineCtx) (step : WorkflowStep)
    (st : RunState) (h1 : step.on_failure = "retry")
    (h2 : step.retry_count < step.max_retries)
    (h3 : (execute_step ctx step st.vars).1.status = StepStatus.failed) :
    run_step_exec ctx step st =
      ((execute_step ctx
          { (execute_step ctx step st.vars).1 with
            retry_count := step.retry_count + 1,
            status := StepStatus.pending }
          (execute_step ctx step st.vars).2).1,
       { st with vars := (execute_step ctx
          { (execute_step ctx step st.vars).1 with
            retry_count := step.retry_count + 1,
            status := StepStatus.pending }
          (execute_step ctx step st.vars).2).2 },
       false) ∧
    (run_step_exec ctx step st).1.retry_count = step.retry_count + 1 := by
  obtain ⟨p1, p2, p3⟩ := execute_step_preserves ctx step st.vars
  have hstop : ((execute_step ctx step st.vars).1.on_failure = "stop")
      = False := by
    rw [p2, h1]
    simp
  have hretry : ((execute_step ctx step st.vars).1.on_failure = "retry")
      = True := by
    rw [p2, h1]
    simp
  have hmain : run_step_exec ctx step st =
      ((execute_step ctx
          { (execute_step ctx step st.vars).1 with
            retry_count := step.retry_count + 1,
            status := StepStatus.pending }
          (execute_step ctx step st.vars).2).1,
       { st with vars := (execute_step ctx
          { (execute_step ctx step st.vars).1 with
            retry_count := step.retry_count + 1,
            status := StepStatus.pending }
          (execute_step ctx step st.vars).2).2 },
       false) := by
    simp only [run_step_exec, h3, hstop, hretry, p1, p3, h2, if_true,
      if_false, Bool.true_and, eq_self_iff_true]
    simp [h2]
  refine ⟨hmain, ?_⟩
  rw [hmain]
  exact (execute_step_preserves ctx
    { (execute_step ctx step st.vars).1 with
      retry_count := step.retry_count + 1,
      status := StepStatus.pending }
    (execute_step ctx step st.vars).2).1

/-- A concrete instantiation of C5's amended theorem: the failing fixture
step ends one run of `run_step_exec` with its retry counter at 1. -/
theorem C5_amended_single_retry_witness :
    (run_step_exec (mkCtx failReg) sFail rs0).1.retry_count = 0 + 1 :=
  (C5_amended_single_retry (mkCtx failReg) sFail rs0 rfl (by decide)
    (by decide)).2

/-! ## Claim C6 -/

/-- Step `s1` of the end-to-end echo scenario: echo "hello". -/
def s1 : WorkflowStep :=
  { id := "s1", name := "s1", tool := "echo",
    parameters := [("message", PyVal.str "hello")] }

/-- Step `s2` of the end-to-end echo scenario: echo
`\x7b\x7bs1_result\x7d\x7d-world`. -/
def s2 : WorkflowStep :=
  { id := "s2", name := "s2", tool := "echo",
    parameters :=
      [("message", PyVal.str "\x7b\x7bs1_result\x7d\x7d-world")] }

/-- The two-step echo workflow of spec §8.10. -/
def wfC6 : Workflow :=
  { id := "w6", name := "w6", description := "", steps := [s1, s2] }

/-- C6 (counterexample): the claim asserts `s2`'s payload comes out
"hello-world".  It comes out as the literal placeholder text: `s1`'s
bare-string payload is not a dict, so `_execute_step` never merges it into
the variable bag, and the `\x7b\x7bs1_result\x7d\x7d` placeholder survives
substitution verbatim. -/
theorem C6_counterexample :
    (execute_workflow (mkCtx echoReg) wfC6 []).steps.map
        (fun s => s.result.map (fun r => r.result)) =
      [some (PyVal.str "hello"),
       some (PyVal.str "\x7b\x7bs1_result\x7d\x7d-world")] ∧
    ¬ (execute_workflow (mkCtx echoReg) wfC6 []).steps.map
        (fun s => s.result.map (fun r => r.result)) =
      [some (PyVal.str "hello"), some (PyVal.str "hello-world")] := by
  refine ⟨by decide, by decide⟩

/-- C6 (amended): the two-step echo workflow completes, but `s2`'s result
payload is the literal `\x7b\x7bs1_result\x7d\x7d-world`: a step's result
is merged into the variable bag under `"<step.id>_result"` only when the
payload is a truthy dict, so echo's bare-string payload is never merged
and no `s1_result` variable ever exists. -/
theorem C6_amended_echo_scenario :
    (execute_workflow (mkCtx echoReg) wfC6 []).status =
      WorkflowStatus.completed ∧
    (execute_workflow (mkCtx echoReg) wfC6 []).steps.map
        (fun s => (s.status, s.result.map (fun r => r.result))) =
      [(StepStatus.completed, some (PyVal.str "hello")),
       (StepStatus.completed,
        some (PyVal.str "\x7b\x7bs1_result\x7d\x7d-world"))] ∧
    alistGet (execute_workflow (mkCtx echoReg) wfC6 []).vars "s1_result" =
      Option.none := by
  refine ⟨by decide, by decide, by decide⟩

/-! ## Claim C10 -/

/-- A stand-in for Python `eval` in the condition fixtures: the expression
"False" evaluates to the boolean `False`; anything else (such as
"False == true", where `true` is an undefined name) raises. -/
def evalC10 : String → PyOutcome PyVal :=
  fun s => if s = "False" then .ok (PyVal.bool false)
           else .exn (.genericError "NameError")

/-- Engine context over the echo registry with the `evalC10` evaluator. -/
def ctxC10 : EngineCtx :=
  { reg := echoReg, evalPy := evalC10, nowIso := "NOW", ts := "TS" }

/-- An echo step guarded by the condition `\x7b\x7bflag\x7d\x7d`. -/
def sCond : WorkflowStep :=
  { id := "c1", name := "c1", tool := "echo",
    parameters := [("message", PyVal.str "m")],
    condition := some "\x7b\x7bflag\x7d\x7d" }

/-- An echo step guarded by the condition
`\x7b\x7bflag\x7d\x7d == true`, whose evaluation raises. -/
def sCond2 : WorkflowStep :=
  { id := "c2", name := "c2", tool := "echo",
    parameters := [("message", PyVal.str "m")],
    condition := some "\x7b\x7bflag\x7d\x7d == true" }

/-- Run state whose variable bag carries `flag = False`. -/
def rsFlag : RunState :=
  { status := WorkflowStatus.running, error := Option.none,
    vars := [("flag", PyVal.bool false)] }

/-- C10: a step whose declared condition evaluates to a falsy value is
marked skipped, its tool is never invoked and the variable bag is left
untouched (the loop continues on the very same state, and the skipped step
differs from the input step only in its status); a condition whose
evaluation raises is treated as satisfied, so the step goes down the
ordinary execution path. -/
theorem C10_condition_semantics (ctx : EngineCtx) (step : WorkflowStep)
    (rest : List WorkflowStep) (st : RunState) (c : String)
    (hcan : ¬ st.status = WorkflowStatus.cancelled)
    (hc : step.condition = some c) (hne : ¬ c = "") :
    (evaluate_condition ctx.evalPy c st.vars = false →
      run_steps ctx (step :: rest) st =
        ({ step with status := StepStatus.skipped } ::
            (run_steps ctx rest st).1,
         (run_steps ctx rest st).2)) ∧
    (∀ m, ctx.evalPy (condSubstitute st.vars c) = .exn m →
      run_step ctx step st = run_step_exec ctx step st) := by
  constructor
  · intro heval
    have hskip : (match step.condition with
        | some c => c != "" && !evaluate_condition ctx.evalPy c st.vars
        | Option.none => false) = true := by
      rw [hc]
      simp [heval, hne]
    simp only [run_steps, hcan, if_false]
    simp only [run_step, hskip, if_true]
    simp
  · intro m hm
    have heval : evaluate_condition ctx.evalPy c st.vars = true := by
      unfold evaluate_condition
      rw [hm]
    have hskip : (match step.condition with
        | some c => c != "" && !evaluate_condition ctx.evalPy c st.vars
        | Option.none => false) = false := by
      rw [hc]
      simp [heval]
    simp only [run_step, hskip]
    simp

/-- A concrete instantiation of both parts of C10's theorem: with
`flag = False`, the step whose condition is the bare placeholder is
skipped on an unchanged state, and the step whose condition references the
undefined name `true` (evaluation raises) goes down the execution path. -/
theorem C10_condition_semantics_witness :
    run_steps ctxC10 [sCond] rsFlag =
      ([{ sCond with status := StepStatus.skipped }], rsFlag) ∧
    run_step ctxC10 sCond2 rsFlag = run_step_exec ctxC10 sCond2 rsFlag := by
  constructor
  · have h := (C10_condition_semantics ctxC10 sCond [] rsFlag
      "\x7b\x7bflag\x7d\x7d" (by decide) rfl (by decide)).1 (by decide)
    rw [h]
    decide
  · exact (C10_condition_semantics ctxC10 sCond2 [] rsFlag
      "\x7b\x7bflag\x7d\x7d == true" (by decide) rfl (by decide)).2
      (.genericError "NameError") (by decide)

/-! ## Claim C7 -/

/-- C7 (counterexample): a 500 response is surfaced immediately as an
uncaught `httpx.HTTPStatusError` — it is not retried, although the claim
says every HTTP error status other than 401/404 is retried with backoff.
With `max_retries = 2`, a first-attempt 500 produces the same immediate
error with no backoff sleeps whether later attempts would have failed or
succeeded: the retry budget is never consulted. -/
theorem C7_counterexample :
    make_request 2 1 (fun _ => .resp 500 JVal.null) =
      (.exn (.httpStatusError 500), []) ∧
    make_request 2 1
        (fun n => if n = 0 then .resp 500 JVal.null
                  else .resp 200 (JVal.str "ok")) =
      (.exn (.httpStatusError 500), []) := by
  refine ⟨by decide, by decide⟩

/-- C7 (amended): in the retry loop, a 401 or 404 at any attempt is
surfaced immediately as a distinct typed error with no further backoff; a
429 or a network-level failure at attempt `n` sleeps `base * 2 ^ n` and
retries while attempts remain, and is surfaced as the distinct rate-limit
error (resp. a generic request-failure error) when the budget is
exhausted; any other HTTP status at or above 400 is surfaced immediately
as an `httpx.HTTPStatusError` — `raise_for_status()`'s exception is not an
`httpx.RequestError`, so the retry clause never sees it. -/
theorem C7_amended_retry_policy (maxR baseD : Nat)
    (att : Nat → AttemptResult) (fuel n : Nat) :
    (∀ b, att n = .resp 401 b →
      make_request_loop maxR baseD att (fuel + 1) n =
        (.exn (.authenticationError "Invalid API key"), [])) ∧
    (∀ b, att n = .resp 404 b →
      make_request_loop maxR baseD att (fuel + 1) n =
        (.exn (.modelNotFoundError "Model not found or not available"),
         [])) ∧
    (∀ b, att n = .resp 429 b → n < maxR →
      make_request_loop maxR baseD att (fuel + 1) n =
        ((make_request_loop maxR baseD att fuel (n + 1)).1,
         baseD * 2 ^ n ::
           (make_request_loop maxR baseD att fuel (n + 1)).2)) ∧
    (∀ b, att n = .resp 429 b → ¬ n < maxR →
      make_request_loop maxR baseD att (fuel + 1) n =
        (.exn (.rateLimitError "Rate limit exceeded"), [])) ∧
    (∀ m, att n = .netErr m → n < maxR →
      make_request_loop maxR baseD att (fuel + 1) n =
        ((make_request_loop maxR baseD att fuel (n + 1)).1,
         baseD * 2 ^ n ::
           (make_request_loop maxR baseD att fuel (n + 1)).2)) ∧
    (∀ m, att n = .netErr m → ¬ n < maxR →
      make_request_loop maxR baseD att (fuel + 1) n =
        (.exn (.openRouterError ("Request failed: " ++ m)), [])) ∧
    (∀ code b, att n = .resp code b → 400 ≤ code → ¬ code = 401 →
      ¬ code = 404 → ¬ code = 429 →
      make_request_loop maxR baseD att (fuel + 1) n =
        (.exn (.httpStatusError code), [])) := by
  refine ⟨?_, ?_, ?_, ?_, ?_, ?_, ?_⟩
  · intro b hatt
    simp [make_request_loop, hatt]
  · intro b hatt
    simp [make_request_loop, hatt]
  · intro b hatt hn
    simp [make_request_loop, hatt, hn]
  · intro b hatt hn
    simp [make_request_loop, hatt, hn]
  · intro m hatt hn
    simp [make_request_loop, hatt, hn]
  · intro m hatt hn
    simp [make_request_loop, hatt, hn]
  · intro code b hatt h400 h401 h404 h429
    have h200 : ¬ code = 200 := by omega
    simp [make_request_loop, hatt, h200, h401, h404, h429, h400]

/-- The 429-then-network-failure attempt sequence used by C7's witness. -/
def attC7 : Nat → AttemptResult :=
  fun n => if n = 0 then .resp 429 JVal.null else .netErr "down"

/-- A concrete instantiation of the branches of C7's amended theorem. -/
theorem C7_amended_retry_policy_witness :
    make_request_loop 2 1 (fun _ => .resp 401 JVal.null) 1 0 =
      (.exn (.authenticationError "Invalid API key"), []) ∧
    make_request_loop 2 1 attC7 3 0 =
      ((make_request_loop 2 1 attC7 2 1).1,
       1 * 2 ^ 0 :: (make_request_loop 2 1 attC7 2 1).2) ∧
    make_request_loop 2 1 (fun _ => .netErr "down") 1 2 =
      (.exn (.openRouterError ("Request failed: " ++ "down")), []) ∧
    make_request_loop 2 1 (fun _ => .resp 500 JVal.null) 1 0 =
      (.exn (.httpStatusError 500), []) := by
  refine ⟨?_, ?_, ?_, ?_⟩
  · exact (C7_amended_retry_policy 2 1 (fun _ => .resp 401 JVal.null) 0 0).1
      JVal.null rfl
  · exact (C7_amended_retry_policy 2 1 attC7 2 0).2.2.1 JVal.null rfl
      (by decide)
  · exact (C7_amended_retry_policy 2 1 (fun _ => .netErr "down") 0
      2).2.2.2.2.2.1 "down" rfl (by decide)
  · exact (C7_amended_retry_policy 2 1 (fun _ => .resp 500 JVal.null) 0
      0).2.2.2.2.2.2 500 JVal.null rfl (by decide) (by decide) (by decide)
      (by decide)

/-! ## Claim C2 -/

/-- One loop iteration either breaks with the workflow marked failed (the
`stop` policy) or continues with the workflow status untouched. -/
theorem run_step_break_or_same (ctx : EngineCtx) (step : WorkflowStep)
    (st : RunState) :
    ((run_step ctx step st).2.2 = true ∧
      (run_step ctx step st).2.1.status = WorkflowStatus.failed) ∨
    ((run_step ctx step st).2.2 = false ∧
      (run_step ctx step st).2.1.status = st.status) := by
  unfold run_step run_step_exec
  dsimp only
  split
  · right
    exact ⟨rfl, rfl⟩
  · split
    · split
      · left
        exact ⟨rfl, rfl⟩
      · split
        · right
          exact ⟨rfl, rfl⟩
        · right
          exact ⟨rfl, rfl⟩
    · right
      exact ⟨rfl, rfl⟩

/-- Starting from a running workflow, the step loop can only end running or
failed (nothing inside it cancels or completes). -/
theorem run_steps_status (ctx : EngineCtx) (steps : List WorkflowStep) :
    ∀ st : RunState, st.status = WorkflowStatus.running →
      (run_steps ctx steps st).2.status = WorkflowStatus.running ∨
      (run_steps ctx steps st).2.status = WorkflowStatus.failed := by
  induction steps with
  | nil =>
    intro st h
    left
    exact h
  | cons s rest ih =>
    intro st h
    have hcan : ¬ st.status = WorkflowStatus.cancelled := by
      rw [h]
      simp
    simp only [run_steps, hcan, if_false]
    rcases run_step_break_or_same ctx s st with ⟨hb, hs⟩ | ⟨hb, hs⟩
    · simp only [hb, if_true]
      right
      exact hs
    · simp only [hb, Bool.false_eq_true, if_false]
      exact ih _ (by rw [hs]; exact h)

/-- `execute_workflow` always returns a workflow whose final status is
`completed` or `failed`. -/
theorem execute_workflow_status (ctx : EngineCtx) (wf : Workflow)
    (ov : List (String × PyVal)) :
    (execute_workflow ctx wf ov).status = WorkflowStatus.completed ∨
    (execute_workflow ctx wf ov).status = WorkflowStatus.failed := by
  unfold execute_workflow
  dsimp only
  rcases run_steps_status ctx wf.steps
    { status := WorkflowStatus.running, error := wf.error,
      vars := ov.foldl (fun acc kv => alistSet acc kv.1 kv.2) wf.vars }
    rfl with h | h
  · rw [h]
    split
    · split
      · right
        rfl
      · left
        rfl
    · rename_i hcon
      exact absurd rfl hcon
  · rw [h]
    rw [if_neg (by decide)]
    right
    rfl

/-- The router configuration fixture. -/
def cfg0 : RouterConfig :=
  { default_model := "m", max_retries := 2, base_retry_delay := 1 }

/-- C2 (counterexample): `Router.complete` (`chat_completion`) does not
convert failures into an error-carrying response value: on an empty
message list it raises `ValueError` — an exception escapes the public
entry point, contradicting the claim for this entry point. -/
theorem C2_counterexample :
    chat_completion cfg0 (fun _ => .netErr "down")
      (.exn (.genericError "o")) (.exn (.genericError "g")) []
      Option.none =
    .exn (.valueError "Messages cannot be empty") := by
  decide

/-- C2 (amended): `Registry.execute` and `WorkflowEngine.execute` do
convert internal failures into typed result values — a raising tool body
becomes a failure `ToolResult`, and a workflow always comes back with a
terminal `completed`/`failed` status — but `Router.complete` raises
instead: empty input raises `ValueError`, and a failing request raises
`OpenRouterError` wrapping the underlying error's message. -/
theorem C2_amended_entry_points :
    (∀ (cfg : RouterConfig) (att : Nat → AttemptResult)
        (o g : PyOutcome ApiChatResponse) (m? : Option String),
      chat_completion cfg att o g [] m? =
        .exn (.valueError "Messages cannot be empty")) ∧
    (∀ (cfg : RouterConfig) (att : Nat → AttemptResult)
        (o g : PyOutcome ApiChatResponse) (msgs : List ApiMessage)
        (m : String) (e : PyExn),
      msgs.isEmpty = false → ¬ m = "" →
      m.startsWith "ollama/" = false →
      (m.startsWith "groq/" || groqAvailableModels.contains m) = false →
      (make_request cfg.max_retries cfg.base_retry_delay att).1 = .exn e →
      chat_completion cfg att o g msgs (some m) =
        .exn (.openRouterError ("Chat completion failed: " ++ exnMsg e))) ∧
    (∀ (reg : ToolRegistry) (name : String) (t : BaseTool)
        (k : List (String × PyVal)) (el : Nat) (e : PyExn),
      alistGet reg.tools name = some t → t.enabled = true →
      validate_parameters t k = true → t.execute k = .exn e →
      (execute_tool reg name k el).2.success = false ∧
      (execute_tool reg name k el).2.error =
        some ("Tool execution failed: " ++ exnMsg e)) ∧
    (∀ (ctx : EngineCtx) (wf : Workflow) (ov : List (String × PyVal)),
      (execute_workflow ctx wf ov).status = WorkflowStatus.completed ∨
      (execute_workflow ctx wf ov).status = WorkflowStatus.failed) := by
  refine ⟨?_, ?_, ?_, ?_⟩
  · intro cfg att o g m?
    simp [chat_completion]
  · intro cfg att o g msgs m e hne hm holl hgroq hreq
    unfold chat_completion
    simp only [hne, Bool.false_eq_true, if_false, hm, holl, hgroq, hreq]
  · intro reg name t k el e ht he hv hx
    unfold execute_tool
    rw [ht]
    simp only [he, Bool.not_true, Bool.false_eq_true, if_false]
    unfold safe_execute
    rw [hv, hx]
    simp
  · intro ctx wf ov
    exact execute_workflow_status ctx wf ov

/-- A concrete instantiation of the four parts of C2's amended theorem. -/
theorem C2_amended_entry_points_witness :
    chat_completion cfg0 (fun _ => .netErr "down")
      (.exn (.genericError "o")) (.exn (.genericError "g")) []
      Option.none = .exn (.valueError "Messages cannot be empty") ∧
    chat_completion cfg0 (fun _ => .netErr "down")
      (.exn (.genericError "o")) (.exn (.genericError "g"))
      [{ role := "user", content := "hi" }] (some "x") =
      .exn (.openRouterError
        ("Chat completion failed: " ++ exnMsg
          (.openRouterError "Request failed: down"))) ∧
    (execute_tool c3Reg "boom" [] 1).2.success = false ∧
    ((execute_workflow (mkCtx echoReg) wfC6 []).status =
        WorkflowStatus.completed ∨
      (execute_workflow (mkCtx echoReg) wfC6 []).status =
        WorkflowStatus.failed) := by
  refine ⟨?_, ?_, ?_, ?_⟩
  · exact C2_amended_entry_points.1 cfg0 (fun _ => .netErr "down")
      (.exn (.genericError "o")) (.exn (.genericError "g")) Option.none
  · exact C2_amended_entry_points.2.1 cfg0 (fun _ => .netErr "down")
      (.exn (.genericError "o")) (.exn (.genericError "g"))
      [{ role := "user", content := "hi" }] "x"
      (.openRouterError "Request failed: down") rfl (by decide) (by decide)
      (by decide) (by decide)
  · exact ((C2_amended_entry_points.2.2.1) c3Reg "boom" raisingTool [] 1
      (.valueError "kaput") rfl rfl rfl rfl).1
  · exact C2_amended_entry_points.2.2.2 (mkCtx echoReg) wfC6 []

/-! ## Claim C8 -/

/-- The formatted tool-call object the parser fixtures produce for the echo
tool, with the given id. -/
def echoCall (idv : String) : JVal :=
  JVal.obj
    [("id", .str idv), ("type", .str "function"),
     ("function", .obj
       [("name", .str "echo"), ("arguments", .str "\x7b\x7d")])]

/-- C8 (counterexample): the claim says the parser never raises on any
input text.  On `\x7b"tool_calls": 5\x7d` — well-formed JSON whose
`tool_calls` value is not iterable — the loop header `for call in
tool_calls` raises `TypeError`, which the `except (json.JSONDecodeError,
KeyError, AttributeError)` clause does not catch. -/
theorem C8_counterexample :
    parse_tool_calls "\x7b\"tool_calls\": 5\x7d" =
      .exn (.typeError "'int' object is not iterable") := by
  decide

/-- C8 (amended): the parser never raises *provided* any located and
successfully parsed `tool_calls` value is iterable (a list, dict or
string); on such inputs it behaves as claimed — well-formed JSON embedded
in prose parses to the call list, a missing `id` is synthesized as
`call_<index>`, an entry lacking a `function` object is dropped without
failing the rest, plain text and truncated JSON produce an empty call list
(plain text keeping the original text as message content) — and the
assembled message has `null` content exactly when at least one call was
recovered. -/
theorem C8_amended_parse_behaviour (s : String) :
    ((∀ cand kvs tc, locate_tool_calls s = some cand →
        loadsJson cand = some (JVal.obj kvs) →
        jGet kvs "tool_calls" = some tc → (pyIterJ tc).isSome) →
      ∃ l, parse_tool_calls s = .ok l) ∧
    parse_tool_calls
      "Sure! \x7b\"tool_calls\": [\x7b\"id\": \"call_1\", \"type\": \"function\", \"function\": \x7b\"name\": \"echo\", \"arguments\": \"\x7b\x7d\"\x7d\x7d]\x7d ok"
      = .ok [echoCall "call_1"] ∧
    parse_tool_calls
      "\x7b\"tool_calls\": [\x7b\"type\": \"function\", \"function\": \x7b\"name\": \"echo\", \"arguments\": \"\x7b\x7d\"\x7d\x7d]\x7d"
      = .ok [echoCall "call_0"] ∧
    parse_tool_calls
      "\x7b\"tool_calls\": [\x7b\"type\": \"function\"\x7d, \x7b\"id\": \"call_9\", \"function\": \x7b\"name\": \"echo\", \"arguments\": \"\x7b\x7d\"\x7d\x7d]\x7d"
      = .ok [echoCall "call_9"] ∧
    emulated_tool_message "I cannot help with that." =
      .ok { role := "assistant", content := some "I cannot help with that.",
            tool_calls := [] } ∧
    parse_tool_calls
      "\x7b\"tool_calls\": [\x7b\"function\": \x7b\"name\": \"a\"\x7d"
      = .ok [] ∧
    (∀ m, emulated_tool_message s = .ok m →
      (m.content = Option.none ↔ ¬ m.tool_calls = [])) := by
  refine ⟨?_, by decide, by decide, by decide, by decide, by decide, ?_⟩
  · intro h
    rcases hloc : locate_tool_calls s with _ | cand
    · exact ⟨[], by simp only [parse_tool_calls, hloc]⟩
    · rcases hload : loadsJson cand with _ | v
      · exact ⟨[], by simp only [parse_tool_calls, hloc, hload]⟩
      · cases v with
        | obj kvs =>
          rcases hget : jGet kvs "tool_calls" with _ | tc
          · exact ⟨[], by simp only [parse_tool_calls, hloc, hload, hget]⟩
          · have hit := h cand kvs tc hloc hload hget
            rcases hiter : pyIterJ tc with _ | items
            · rw [hiter] at hit
              cases hit
            · rcases hfmt : format_calls [] items with _ | l
              · exact ⟨[], by
                  simp only [parse_tool_calls, hloc, hload, hget, hiter,
                    hfmt]⟩
              · exact ⟨l, by
                  simp only [parse_tool_calls, hloc, hload, hget, hiter,
                    hfmt]⟩
        | null => exact ⟨[], by simp only [parse_tool_calls, hloc, hload]⟩
        | bool b => exact ⟨[], by simp only [parse_tool_calls, hloc, hload]⟩
        | num n => exact ⟨[], by simp only [parse_tool_calls, hloc, hload]⟩
        | str s2 => exact ⟨[], by simp only [parse_tool_calls, hloc, hload]⟩
        | arr xs => exact ⟨[], by simp only [parse_tool_calls, hloc, hload]⟩
  · intro m hm
    unfold emulated_tool_message at hm
    cases hp : parse_tool_calls s with
    | exn e => rw [hp] at hm; cases hm
    | ok tcs =>
      rw [hp] at hm
      injection hm with hm
      subst hm
      cases tcs with
      | nil => simp
      | cons a t => simp

/-- A concrete instantiation of the hypothesis-bearing parts of C8's
amended theorem: on plain text the parser succeeds (the iterability
condition holds vacuously), and the assembled message for prose-embedded
JSON has `null` content with a non-empty call list. -/
theorem C8_amended_parse_behaviour_witness :
    (∃ l, parse_tool_calls "I cannot help with that." = .ok l) ∧
    ((Option.none : Option String) = Option.none ↔
      ¬ [echoCall "call_1"] = ([] : List JVal)) := by
  constructor
  · exact (C8_amended_parse_behaviour "I cannot help with that.").1
      (by
        intro cand kvs tc hloc hload hget
        have hnone : locate_tool_calls "I cannot help with that." =
            Option.none := by decide
        rw [hnone] at hloc
        cases hloc)
  · have h := (C8_amended_parse_behaviour
      "Sure! \x7b\"tool_calls\": [\x7b\"id\": \"call_1\", \"type\": \"function\", \"function\": \x7b\"name\": \"echo\", \"arguments\": \"\x7b\x7d\"\x7d\x7d]\x7d ok").2.2.2.2.2.2
      { role := "assistant", content := Option.none,
        tool_calls := [echoCall "call_1"] } (by decide)
    exact h

/-! ## Claim C9: association-list lemmas -/

/-- A successful lookup's pair is in the list. -/
theorem alistGet_mem {β : Type} {l : List (String × β)} {k : String}
    {v : β} (h : alistGet l k = some v) : (k, v) ∈ l := by
  induction l with
  | nil => cases h
  | cons kv t ih =>
    obtain ⟨k', v'⟩ := kv
    simp only [alistGet] at h
    split at h
    · rename_i hk
      injection h with h
      subst hk h
      exact List.mem_cons_self _ _
    · exact List.mem_cons_of_mem _ (ih h)

/-- A lookup of an absent key fails. -/
theorem alistGet_eq_none {β : Type} {l : List (String × β)} {k : String}
    (h : ¬ k ∈ l.map Prod.fst) : alistGet l k = Option.none := by
  induction l with
  | nil => rfl
  | cons kv t ih =>
    obtain ⟨k', v'⟩ := kv
    simp only [List.map_cons, List.mem_cons] at h
    push_neg at h
    simp only [alistGet]
    rw [if_neg (by intro hc; exact h.1 hc.symm)]
    exact ih h.2

/-- Membership after a dict update: the new pair or an old one. -/
theorem mem_alistSet {β : Type} {l : List (String × β)} {k : String}
    {v : β} {p : String × β} (h : p ∈ alistSet l k v) :
    p = (k, v) ∨ p ∈ l := by
  induction l with
  | nil =>
    simp only [alistSet, List.mem_singleton] at h
    left
    exact h
  | cons kv t ih =>
    simp only [alistSet] at h
    split at h
    · rcases List.mem_cons.mp h with h | h
      · left
        exact h
      · right
        exact List.mem_cons_of_mem _ h
    · rcases List.mem_cons.mp h with h | h
      · right
        exact h ▸ List.mem_cons_self _ _
      · rcases ih h with h | h
        · left
          exact h
        · right
          exact List.mem_cons_of_mem _ h

/-- Looking up the just-set key finds the new value. -/
theorem alistGet_set_self {β : Type} (l : List (String × β)) (k : String)
    (v : β) : alistGet (alistSet l k v) k = some v := by
  induction l with
  | nil => simp [alistSet, alistGet]
  | cons kv t ih =>
    obtain ⟨k', v'⟩ := kv
    simp only [alistSet]
    split
    · simp [alistGet]
    · rename_i hk
      simp only [alistGet]
      rw [if_neg hk]
      exact ih

/-- Setting one key leaves lookups of other keys unchanged. -/
theorem alistGet_set_ne {β : Type} (l : List (String × β)) (k : String)
    (v : β) (q : String) (h : ¬ k = q) :
    alistGet (alistSet l k v) q = alistGet l q := by
  induction l with
  | nil =>
    simp only [alistSet, alistGet]
    rw [if_neg h]
  | cons kv t ih =>
    obtain ⟨k', v'⟩ := kv
    simp only [alistSet]
    split
    · rename_i hk
      simp only [alistGet]
      rw [if_neg h, if_neg (by rw [hk]; exact hk ▸ h)]
    · simp only [alistGet]
      split
      · rfl
      · exact ih

/-- `alistHasKey` decides key-set membership. -/
theorem alistHasKey_iff {β : Type} (l : List (String × β)) (k : String) :
    alistHasKey l k = true ↔ k ∈ l.map Prod.fst := by
  simp [alistHasKey, List.any_eq_true, List.mem_map]

/-- The key set after a dict update. -/
theorem map_fst_alistSet {β : Type} (l : List (String × β)) (k : String)
    (v : β) :
    (alistSet l k v).map Prod.fst =
      if alistHasKey l k then l.map Prod.fst
      else l.map Prod.fst ++ [k] := by
  induction l with
  | nil => simp [alistSet, alistHasKey]
  | cons kv t ih =>
    obtain ⟨k', v'⟩ := kv
    simp only [alistSet, alistHasKey, List.any_cons]
    split
    · rename_i hk
      simp [hk]
    · rename_i hk
      simp only [List.map_cons, ih, alistHasKey]
      have : (decide (k' = k) || t.any fun kv => kv.1 = k) =
          t.any fun kv => kv.1 = k := by
        simp [hk]
      rw [this]
      split
      · rfl
      · simp

/-- Removing an entry yields a sublist. -/
theorem alistRemove_sublist {β : Type} (l : List (String × β))
    (k : String) : List.Sublist (alistRemove l k) l := by
  induction l with
  | nil => simp [alistRemove]
  | cons kv t ih =>
    simp only [alistRemove]
    split
    · exact List.sublist_cons_self _ _
    · exact List.Sublist.cons₂ _ ih

/-- Removal only removes. -/
theorem mem_alistRemove {β : Type} {l : List (String × β)} {k : String}
    {p : String × β} (h : p ∈ alistRemove l k) : p ∈ l :=
  (alistRemove_sublist l k).subset h

/-- Removing one key leaves lookups of other keys unchanged. -/
theorem alistGet_remove_ne {β : Type} (l : List (String × β))
    (k q : String) (h : ¬ q = k) :
    alistGet (alistRemove l k) q = alistGet l q := by
  induction l with
  | nil => rfl
  | cons kv t ih =>
    obtain ⟨k', v'⟩ := kv
    simp only [alistRemove]
    split
    · rename_i hk
      simp only [alistGet]
      rw [if_neg (by rw [hk]; intro hc; exact h hc.symm)]
    · simp only [alistGet]
      split
      · rfl
      · exact ih

/-- With unique keys, removal makes the removed key's lookup fail. -/
theorem alistGet_remove_self {β : Type} {l : List (String × β)}
    (hnd : (l.map Prod.fst).Nodup) (k : String) :
    alistGet (alistRemove l k) k = Option.none := by
  induction l with
  | nil => rfl
  | cons kv t ih =>
    obtain ⟨k', v'⟩ := kv
    simp only [List.map_cons, List.nodup_cons] at hnd
    obtain ⟨hk', hnd'⟩ := hnd
    simp only [alistRemove]
    split
    · rename_i hk
      subst hk
      exact alistGet_eq_none hk'
    · rename_i hk
      simp only [alistGet]
      rw [if_neg hk]
      exact ih hnd'

/-- With unique keys, every pair surviving the removal of a present key
has a different key. -/
theorem mem_alistRemove_ne {β : Type} {l : List (String × β)}
    (hnd : (l.map Prod.fst).Nodup) {k : String} {p : String × β}
    (hp : p ∈ alistRemove l k) (hk : alistHasKey l k = true) :
    ¬ p.1 = k := by
  induction l with
  | nil => cases hp
  | cons kv t ih =>
    obtain ⟨k', v'⟩ := kv
    simp only [List.map_cons, List.nodup_cons] at hnd
    obtain ⟨hk', hnd'⟩ := hnd
    simp only [alistRemove] at hp
    split at hp
    · rename_i hkk
      subst hkk
      intro hc
      exact hk' (hc ▸ List.mem_map.mpr ⟨p, hp, rfl⟩)
    · rename_i hkk
      rcases List.mem_cons.mp hp with h | h
      · rw [h]
        exact hkk
      · have hk2 : alistHasKey t k = true := by
          simp only [alistHasKey, List.any_cons] at hk
          rcases Bool.or_eq_true_iff.mp hk with h2 | h2
          · exact absurd (of_decide_eq_true h2) hkk
          · exact h2
        exact ih hnd' h hk2

/-! ## Claim C9: operations, invariants and preservation -/

/-- A runtime registry operation. -/
inductive RegOp where
  | register (t : BaseTool)
  | unregister (name : String)

/-- Apply one registry operation. -/
def apply_op (reg : ToolRegistry) : RegOp → ToolRegistry
  | .register t => register_tool reg t
  | .unregister n => unregister_tool reg n

/-- Apply a sequence of registry operations in order. -/
def apply_ops : ToolRegistry → List RegOp → ToolRegistry
  | reg, [] => reg
  | reg, op :: rest => apply_ops (apply_op reg op) rest

/-- The invariant of the claim: every name in the category index exists in
the primary map, and every name in the primary map appears somewhere in
the category index. -/
def registryInvariant (reg : ToolRegistry) : Prop :=
  (∀ c n, n ∈ reg.categories c → (alistGet reg.tools n).isSome = true) ∧
  (∀ p : String × BaseTool, p ∈ reg.tools → ∃ c, p.1 ∈ reg.categories c)

/-- The strengthened inductive invariant the registry actually maintains
when re-registrations keep the category: entries are keyed by their tool's
name, keys are unique, category lists hold no duplicates, every indexed
name resolves to a tool of that category, and every tool's name is indexed
under its category. -/
structure RegWf (reg : ToolRegistry) : Prop where
  keyed : ∀ p : String × BaseTool, p ∈ reg.tools → p.2.name = p.1
  toolsNodup : (reg.tools.map Prod.fst).Nodup
  catNodup : ∀ c, (reg.categories c).Nodup
  catOf : ∀ c n, n ∈ reg.categories c →
    ∃ t, alistGet reg.tools n = some t ∧ t.category = c
  inCat : ∀ p : String × BaseTool, p ∈ reg.tools →
    p.1 ∈ reg.categories p.2.category

/-- Registering a tool preserves the strengthened invariant provided that
any tool it replaces has the same category (the stale-entry hazard needs a
category change). -/
theorem regWf_register {reg : ToolRegistry} {t : BaseTool}
    (hwf : RegWf reg)
    (hcompat : ∀ old, alistGet reg.tools t.name = some old →
      old.category = t.category) :
    RegWf (register_tool reg t) := by
  refine ⟨?_, ?_, ?_, ?_, ?_⟩
  · intro p hp
    rcases mem_alistSet hp with rfl | hp
    · rfl
    · exact hwf.keyed p hp
  · show ((alistSet reg.tools t.name t).map Prod.fst).Nodup
    rw [map_fst_alistSet]
    split
    · exact hwf.toolsNodup
    · rename_i hhas
      have hk : ¬ t.name ∈ reg.tools.map Prod.fst := by
        intro hc
        exact hhas ((alistHasKey_iff _ _).mpr hc)
      simp [List.nodup_append, hwf.toolsNodup, hk]
  · intro c
    dsimp only [register_tool]
    split
    · split
      · exact hwf.catNodup c
      · rename_i hcont
        have hm : ¬ t.name ∈ reg.categories c := by
          intro hc
          exact hcont (List.any_eq_true.mpr ⟨t.name, hc, by simp⟩)
        simp [List.nodup_append, hwf.catNodup c, hm]
    · exact hwf.catNodup c
  · intro c n hn
    dsimp only [register_tool] at hn ⊢
    by_cases hc : c = t.category
    · rw [if_pos hc] at hn
      have hn' : n ∈ reg.categories c ∨ n = t.name := by
        split at hn
        · left
          exact hn
        · rcases List.mem_append.mp hn with h | h
          · left
            exact h
          · right
            exact List.mem_singleton.mp h
      rcases hn' with hn' | rfl
      · obtain ⟨t', hget, hcat⟩ := hwf.catOf c n hn'
        by_cases hnn : n = t.name
        · subst hnn
          exact ⟨t, alistGet_set_self _ _ _, hc.symm⟩
        · exact ⟨t', by
            rw [alistGet_set_ne _ _ _ _ (fun he => hnn he.symm)]
            exact hget, hcat⟩
      · exact ⟨t, alistGet_set_self _ _ _, hc.symm⟩
    · rw [if_neg hc] at hn
      obtain ⟨t', hget, hcat⟩ := hwf.catOf c n hn
      have hnn : ¬ n = t.name := by
        intro he
        subst he
        rw [hget] at hcompat
        exact hc ((hcompat t' rfl ▸ hcat : (t.category = c)).symm)
      exact ⟨t', by
        rw [alistGet_set_ne _ _ _ _ (fun he => hnn he.symm)]
        exact hget, hcat⟩
  · intro p hp
    dsimp only [register_tool] at hp ⊢
    rcases mem_alistSet hp with rfl | hp
    · rw [if_pos rfl]
      split
      · rename_i hcont
        simp only [List.any_eq_true] at hcont
        obtain ⟨m, hm, he⟩ := hcont
        exact (of_decide_eq_true he) ▸ hm
      · exact List.mem_append_right _ (List.mem_singleton.mpr rfl)
    · have hold := hwf.inCat p hp
      by_cases hcc : p.2.category = t.category
      · rw [if_pos hcc]
        split
        · exact hcc ▸ hold
        · exact List.mem_append_left _ (hcc ▸ hold)
      · rw [if_neg hcc]
        exact hold

/-- Unregistering preserves the strengthened invariant unconditionally. -/
theorem regWf_unregister (reg : ToolRegistry) (n : String)
    (hwf : RegWf reg) : RegWf (unregister_tool reg n) := by
  rcases hget : alistGet reg.tools n with _ | t
  · have heq : unregister_tool reg n = reg := by
      unfold unregister_tool
      rw [hget]
    rw [heq]
    exact hwf
  · have heq : unregister_tool reg n =
        { tools := alistRemove reg.tools n,
          categories := fun c =>
            if c = t.category then (reg.categories c).erase n
            else reg.categories c } := by
      unfold unregister_tool
      rw [hget]
    rw [heq]
    have hhas : alistHasKey reg.tools n = true :=
      (alistHasKey_iff _ _).mpr
        (List.mem_map.mpr ⟨(n, t), alistGet_mem hget, rfl⟩)
    refine ⟨?_, ?_, ?_, ?_, ?_⟩
    · intro p hp
      exact hwf.keyed p (mem_alistRemove hp)
    · exact hwf.toolsNodup.sublist
        ((alistRemove_sublist reg.tools n).map Prod.fst)
    · intro c
      dsimp only
      split
      · exact (hwf.catNodup c).erase n
      · exact hwf.catNodup c
    · intro c m hm
      dsimp only at hm ⊢
      by_cases hc : c = t.category
      · rw [if_pos hc] at hm
        have hmem := List.mem_of_mem_erase hm
        have hne : ¬ m = n := ((hwf.catNodup c).mem_erase_iff.mp hm).1
        obtain ⟨t', hget', hcat⟩ := hwf.catOf c m hmem
        exact ⟨t', by
          rw [alistGet_remove_ne _ _ _ hne]
          exact hget', hcat⟩
      · rw [if_neg hc] at hm
        obtain ⟨t', hget', hcat⟩ := hwf.catOf c m hm
        have hne : ¬ m = n := by
          intro he
          subst he
          rw [hget] at hget'
          injection hget' with hget'
          subst hget'
          exact hc hcat.symm
        exact ⟨t', by
          rw [alistGet_remove_ne _ _ _ hne]
          exact hget', hcat⟩
    · intro p hp
      dsimp only
      have hpold := mem_alistRemove hp
      have hin := hwf.inCat p hpold
      have hpne : ¬ p.1 = n := mem_alistRemove_ne hwf.toolsNodup hp hhas
      split
      · exact (List.mem_erase_of_ne hpne).mpr hin
      · exact hin

/-- The amended claim's side condition, evaluated against the registry
state at the moment of each operation: whenever a registration *replaces*
an existing tool of the same name, the replacement has the same category.
A registration of a name that is currently absent (fresh, or previously
unregistered) is unconstrained. -/
def opsCategoryConsistent : ToolRegistry → List RegOp → Prop
  | _, [] => True
  | reg, RegOp.register t :: rest =>
      (∀ old, alistGet reg.tools t.name = some old →
        old.category = t.category) ∧
      opsCategoryConsistent (register_tool reg t) rest
  | reg, RegOp.unregister n :: rest =>
      opsCategoryConsistent (unregister_tool reg n) rest

/-- Applying a category-consistent operation list preserves the
strengthened invariant. -/
theorem apply_ops_wf :
    ∀ (ops : List RegOp) (reg : ToolRegistry), RegWf reg →
      opsCategoryConsistent reg ops → RegWf (apply_ops reg ops)
  | [], _, hwf, _ => hwf
  | RegOp.register t :: rest, reg, hwf, hcons =>
      apply_ops_wf rest (register_tool reg t)
        (regWf_register hwf hcons.1) hcons.2
  | RegOp.unregister n :: rest, reg, hwf, hcons =>
      apply_ops_wf rest (unregister_tool reg n)
        (regWf_unregister reg n hwf) hcons

/-! ## Claim C9: the claim theorems -/

/-- Tool fixture `x` in the file-operations category. -/
def tA : BaseTool :=
  { name := "x", category := ToolCategory.file_operations,
    execute := fun _ => .ok { success := true } }

/-- Tool fixture with the same name `x` in a different category. -/
def tB : BaseTool :=
  { name := "x", category := ToolCategory.web_tools,
    execute := fun _ => .ok { success := true } }

/-- C9 (counterexample): register `x` under file-operations, re-register
it under web-tools (last-write-wins), then unregister it.  The unregister
removes `x` only from the *current* tool's category list (web-tools), so
the stale file-operations entry survives while the primary map no longer
has `x`: the invariant's "every indexed name exists in the map" direction
fails. -/
theorem C9_counterexample :
    ("x" ∈ (apply_ops {} [RegOp.register tA, RegOp.register tB,
        RegOp.unregister "x"]).categories ToolCategory.file_operations) ∧
    (alistGet (apply_ops {} [RegOp.register tA, RegOp.register tB,
        RegOp.unregister "x"]).tools "x").isSome = false ∧
    ¬ registryInvariant (apply_ops {} [RegOp.register tA, RegOp.register tB,
        RegOp.unregister "x"]) := by
  refine ⟨by decide, by decide, ?_⟩
  rintro ⟨h1, -⟩
  have h := h1 ToolCategory.file_operations "x" (by decide)
  have h2 : (alistGet (apply_ops {} [RegOp.register tA, RegOp.register tB,
      RegOp.unregister "x"]).tools "x").isSome = false := by decide
  rw [h] at h2
  cases h2

/-- C9 (amended): after any sequence of register and unregister operations
from the empty registry in which every registration that *replaces* an
existing name uses the same category as the tool it replaces, the
invariant holds: every name in the category index exists in the primary
map and every registered name appears in the category index.
(Re-registering a currently present name under a *different* category
breaks the first direction once the name is later unregistered, as the
counterexample shows; registering a name that was unregistered in the
meantime is unconstrained.) -/
theorem C9_amended_registry_invariant (ops : List RegOp)
    (hcons : opsCategoryConsistent {} ops) :
    registryInvariant (apply_ops {} ops) := by
  have base : RegWf ({} : ToolRegistry) := by
    refine ⟨?_, ?_, ?_, ?_, ?_⟩
    · intro p hp
      cases hp
    · simp [ToolRegistry.tools]
    · intro c
      simp [ToolRegistry.categories]
    · intro c n hn
      cases hn
    · intro p hp
      cases hp
  have hwf := apply_ops_wf ops {} base hcons
  constructor
  · intro c n hn
    obtain ⟨t, hget, -⟩ := hwf.catOf c n hn
    rw [hget]
    rfl
  · intro p hp
    exact ⟨p.2.category, hwf.inCat p hp⟩

/-- A concrete instantiation of C9's amended theorem, on a sequence the
amended claim covers although its two registrations of `x` carry
different categories: the second one replaces nothing because `x` was
unregistered in between, so the sequence is category-consistent and the
final registry satisfies the invariant. -/
theorem C9_amended_registry_invariant_witness :
    registryInvariant
      (apply_ops {} [RegOp.register tA, RegOp.unregister "x",
        RegOp.register tB]) := by
  apply C9_amended_registry_invariant
  constructor
  · intro old hold
    cases hold
  · constructor
    · intro old hold
      have h : (alistGet
          (unregister_tool (register_tool {} tA) "x").tools
          tB.name).isSome = false := by decide
      rw [hold] at h
      cases h
    · trivial

end Model8
